import Mathlib

/-!
Shallow embedding of the keycard engine of the smilodon repository
(src/keycard.py, src/encryption.py, src/retval.py).

Modelling conventions:
* Python byte strings produced by `make_bytestring` are modelled as the list
  of their CRLF-separated lines (the real bytes are the lines joined with
  "\x0d\x0a" plus a trailing terminator); this correspondence is exact as
  long as no emitted value contains a CR or LF character, which the
  round-trip theorems assume explicitly.
* Python dicts are modelled as association lists where updating an existing
  key overwrites it in place and new keys are appended, matching insertion
  order semantics.  Lookup is `fget`, update is `fset`.
* The external cryptographic primitives (PyNaCl Ed25519 signing and
  verification, the blake3/hashlib digests) are not code of this repository;
  they are modelled as explicit function parameters (`sigOf`, `digestOf`,
  `cryptoVerify`).  Freshly generated random key pairs are likewise passed
  in explicitly (`OrgGen`, `UserGen`).
* `RetVal` (src/retval.py) carries an error code (`""` means success), an
  info string and a list of named extra fields.
-/

/-- Python's SIGINFO_HASH constant (keycard.py line 29). -/
def SIGINFO_HASH : Nat := 1

/-- Python's SIGINFO_SIGNATURE constant (keycard.py line 30). -/
def SIGINFO_SIGNATURE : Nat := 2

/-- Dict lookup: first binding of the key, as Python dict lookup. -/
def fget {α : Type} (fs : List (String × α)) (k : String) : Option α :=
  (fs.find? (fun p => p.1 == k)).map Prod.snd

/-- Dict update: overwrite an existing key in place, else append,
matching Python dict insertion-order semantics. -/
def fset {α : Type} (fs : List (String × α)) (k : String) (v : α) :
    List (String × α) :=
  if (fs.find? (fun p => p.1 == k)).isSome then
    fs.map (fun p => if p.1 == k then (k, v) else p)
  else
    fs ++ [(k, v)]

/-- The codepoints Python's str.strip removes: exactly those for which
str.isspace() is true, i.e. the Unicode whitespace characters (general
categories Zs, Zl, Zp together with the bidirectional classes WS, B and S).
The list is the complete table (it has been stable across recent Unicode
versions): 9-13, 28-31, 32, NEL 133, NBSP 160, Ogham space 5760, the
en/em-family spaces 8192-8202, line and paragraph separators 8232-8233,
narrow NBSP 8239, medium mathematical space 8287 and ideographic
space 12288. -/
def pyWsCodes : List Nat :=
  [9, 10, 11, 12, 13, 28, 29, 30, 31, 32, 133, 160, 5760,
   8192, 8193, 8194, 8195, 8196, 8197, 8198, 8199, 8200, 8201, 8202,
   8232, 8233, 8239, 8287, 12288]

/-- Python's test for a character stripped by str.strip (Unicode
whitespace). -/
def pyWs (c : Char) : Bool := pyWsCodes.contains c.toNat

/-- str.strip on the character list. -/
def pyStripList (cs : List Char) : List Char :=
  ((cs.dropWhile pyWs).reverse.dropWhile pyWs).reverse

/-- Python str.strip(). -/
def pyStrip (s : String) : String := String.mk (pyStripList s.data)

/-- Helper for str.split(sep, 1): split a character list at the first
occurrence of `c`. -/
def splitOnceChar (c : Char) : List Char → Option (List Char × List Char)
  | [] => none
  | x :: xs =>
    if x = c then some ([], xs)
    else (splitOnceChar c xs).map (fun p => (x :: p.1, p.2))

/-- Python s.split(c, 1) restricted to the two-part result; `none` models the
one-element result (separator absent). -/
def pySplitOnce (s : String) (c : Char) : Option (String × String) :=
  (splitOnceChar c s.data).map (fun p => (String.mk p.1, String.mk p.2))

/-- Python str.endswith. -/
def pyEndsWith (s suf : String) : Bool := suf.data.isSuffixOf s.data

/-- Decimal digit-string value, `none` when empty or non-digit. -/
def digitsToNat (cs : List Char) : Option Nat :=
  if cs = [] then none
  else if cs.all Char.isDigit then
    some (cs.foldl (fun n c => 10 * n + (c.toNat - 48)) 0)
  else none

/-- Python int() on the plain decimal strings used for the Index field
(an optional sign followed by ASCII digits); other int() spellings
(surrounding whitespace, underscores, non-ASCII digits) are outside the
states the claims quantify over. -/
def pyToInt (s : String) : Option Int :=
  match s.data with
  | '-' :: rest => (digitsToNat rest).map (fun n => -(n : Int))
  | '+' :: rest => (digitsToNat rest).map (fun n => (n : Int))
  | cs => (digitsToNat cs).map (fun n => (n : Int))

/-- Decimal digits of a natural number, most significant first; the first
argument is recursion fuel (n + 1 always suffices). -/
def natDigitsAux : Nat → Nat → List Char
  | 0, _ => []
  | fuel + 1, n =>
    if n < 10 then [Char.ofNat (48 + n)]
    else natDigitsAux fuel (n / 10) ++ [Char.ofNat (48 + n % 10)]

def natDigits (n : Nat) : List Char := natDigitsAux (n + 1) n

/-- Python str() on an int. -/
def pyStr : Int → String
  | Int.ofNat n => String.mk (natDigits n)
  | Int.negSucc n => String.mk ('-' :: natDigits (n + 1))

/-- AlgoString (keycard.py lines 35-82): an ALGORITHM:DATA tagged value.
The Python attribute `prefix` is called `pfx` here. -/
structure AlgoString where
  pfx : String
  data : String
deriving DecidableEq, Repr

/-- AlgoString.set (keycard.py lines 45-55): parse PREFIX:DATA at the first
colon; `none` models the BadParameterValue early return (which leaves the
attributes unassigned). -/
def algoSet (s : String) : Option AlgoString :=
  (pySplitOnce s ':').map (fun p => ⟨p.1, p.2⟩)

/-- AlgoString.__init__ with a data argument: set() is called and its error
ignored; an unparseable string leaves the object without usable attributes,
modelled as the empty (invalid) AlgoString. -/
def algoOfString (s : String) : AlgoString :=
  if s = "" then ⟨"", ""⟩
  else match algoSet s with
    | some a => a
    | none => ⟨"", ""⟩

/-- AlgoString.is_valid (keycard.py lines 75-77). -/
def algoIsValid (a : AlgoString) : Bool := a.pfx ≠ "" ∧ a.data ≠ ""

/-- An entry's mutable state (EntryBase.__init__, keycard.py lines 87-95).
The per-class constants field_names / required_fields / signature_info live
in `Schema`. -/
structure Entry where
  type : String
  fields : List (String × String)
  signatures : List (String × String)
  prev_hash : String
  hash : String
deriving DecidableEq, Repr

/-- One signature_info slot descriptor. -/
structure SigInfo where
  name : String
  level : Nat
  optional : Bool
  sigType : Nat
deriving DecidableEq, Repr

/-- The per-class constants of an entry type. -/
structure Schema where
  field_names : List String
  required_fields : List String
  signature_info : List SigInfo
deriving DecidableEq, Repr

/-- OrgEntry's constants (keycard.py lines 404-433). -/
def orgSchema : Schema :=
  { field_names := ["Index", "Name", "Contact-Admin", "Contact-Abuse",
      "Contact-Support", "Language", "Primary-Verification-Key",
      "Secondary-Verification-Key", "Encryption-Key", "Time-To-Live",
      "Expires"]
    required_fields := ["Index", "Name", "Contact-Admin",
      "Primary-Verification-Key", "Encryption-Key", "Time-To-Live",
      "Expires"]
    signature_info := [⟨"Custody", 1, true, SIGINFO_SIGNATURE⟩,
      ⟨"Organization", 2, false, SIGINFO_SIGNATURE⟩,
      ⟨"Hashes", 3, false, SIGINFO_HASH⟩] }

/-- UserEntry's constants (keycard.py lines 526-561). -/
def userSchema : Schema :=
  { field_names := ["Index", "Name", "Workspace-ID", "User-ID", "Domain",
      "Contact-Request-Verification-Key", "Contact-Request-Encryption-Key",
      "Public-Encryption-Key", "Alternate-Encryption-Key", "Time-To-Live",
      "Expires"]
    required_fields := ["Index", "Workspace-ID", "Domain",
      "Contact-Request-Verification-Key", "Contact-Request-Encryption-Key",
      "Public-Encryption-Key", "Time-To-Live", "Expires"]
    signature_info := [⟨"Custody", 1, true, SIGINFO_SIGNATURE⟩,
      ⟨"Organization", 2, false, SIGINFO_SIGNATURE⟩,
      ⟨"Hashes", 3, false, SIGINFO_HASH⟩,
      ⟨"User", 4, false, SIGINFO_SIGNATURE⟩] }

/-- A fresh OrgEntry (keycard.py lines 404-437): the constructor presets
Index, Time-To-Live and the wall-clock-dependent Expires date, which is
passed in here. -/
def freshOrgEntry (expires : String) : Entry :=
  { type := "Organization"
    fields := [("Index", "1"), ("Time-To-Live", "30"), ("Expires", expires)]
    signatures := []
    prev_hash := ""
    hash := "" }

/-- A fresh UserEntry (keycard.py lines 526-561). -/
def freshUserEntry (expires : String) : Entry :=
  { type := "User"
    fields := [("Index", "1"), ("Time-To-Live", "7"), ("Expires", expires)]
    signatures := []
    prev_hash := ""
    hash := "" }

/-- The schema an entry object of the given Python class uses; chain() only
ever constructs OrgEntry and UserEntry objects. -/
def schemaOf (t : String) : Schema :=
  if t = "Organization" then orgSchema else userSchema

/-- Result carrier (src/retval.py): error code (`""` is success), info text,
and named extra value fields. String fields and the `entry` field returned
by chain() are the only value kinds the core stores. -/
inductive RField where
  | str : String → RField
  | ent : Entry → RField
deriving DecidableEq, Repr

structure RetVal where
  code : String
  info : String
  fields : List (String × RField)
deriving DecidableEq, Repr

/-- RetVal() -/
def RetVal.ok : RetVal := ⟨"", "", []⟩

/-- RetVal(error, info) -/
def RetVal.err (c i : String) : RetVal := ⟨c, i, []⟩

/-- set_value with a string payload. -/
def RetVal.withStr (r : RetVal) (k v : String) : RetVal :=
  { r with fields := fset r.fields k (RField.str v) }

/-- set_value with an entry payload. -/
def RetVal.withEnt (r : RetVal) (k : String) (e : Entry) : RetVal :=
  { r with fields := fset r.fields k (RField.ent e) }

/-- Read back a string field. -/
def RetVal.strField (r : RetVal) (k : String) : Option String :=
  match fget r.fields k with
  | some (RField.str s) => some s
  | _ => none

/-- Read back the `entry` field. -/
def RetVal.entField (r : RetVal) (k : String) : Option Entry :=
  match fget r.fields k with
  | some (RField.ent e) => some e
  | _ => none

/-- make_bytestring (keycard.py lines 165-194), as the list of emitted
lines.  A negative cutoff or one beyond the slot list is replaced by the
last slot's level. -/
def make_bytestring (s : Schema) (e : Entry) (signature_level : Int) :
    List String :=
  let typeLines : List String :=
    if e.type ≠ "" then ["Type:" ++ e.type] else []
  let fieldLines : List String :=
    s.field_names.filterMap (fun f =>
      match fget e.fields f with
      | some v => if v ≠ "" then some (f ++ ":" ++ v) else none
      | none => none)
  let lvl : Nat :=
    if signature_level > (s.signature_info.length : Int) ∨ signature_level < 0
    then (s.signature_info.getLastD ⟨"", 0, false, 0⟩).level
    else signature_level.toNat
  let sigLines : List String :=
    (List.range lvl).flatMap (fun i =>
      match s.signature_info.get? i with
      | none => []
      | some si =>
        if si.sigType = SIGINFO_HASH then
          (if e.prev_hash ≠ "" then ["Previous-Hash:" ++ e.prev_hash] else [])
            ++ (if e.hash ≠ "" then ["Hash:" ++ e.hash] else [])
        else
          match fget e.signatures si.name with
          | some v => if v ≠ "" then [si.name ++ "-Signature:" ++ v] else []
          | none => [])
  typeLines ++ fieldLines ++ sigLines

/-- set_field (keycard.py lines 215-222): assign the field and clear all
signatures and the hash. -/
def set_field (e : Entry) (field_name field_value : String) : Entry :=
  { e with fields := fset e.fields field_name field_value
           signatures := []
           hash := "" }

/-- is_compliant (keycard.py lines 115-143): first missing required field. -/
def firstMissingRequired (req : List String) (fs : List (String × String)) :
    Option String :=
  req.find? (fun f =>
    match fget fs f with
    | none => true
    | some v => v = "")

/-- is_compliant: first signature-compliance failure, in signature_info
order. -/
def firstSigIssue (infos : List SigInfo) (e : Entry) : Option RetVal :=
  infos.findSome? (fun info =>
    if info.sigType = SIGINFO_HASH then
      if e.hash = "" then some (RetVal.err "SignatureMissing" "Hash") else none
    else if info.optional then
      match fget e.signatures info.name with
      | some v =>
        if v = "" then
          some (RetVal.err "SignatureMissing" (info.name ++ "-Signature"))
        else none
      | none => none
    else
      match fget e.signatures info.name with
      | some v =>
        if v = "" then
          some (RetVal.err "SignatureMissing" (info.name ++ "-Signature"))
        else none
      | none =>
        some (RetVal.err "SignatureMissing" (info.name ++ "-Signature")))

/-- is_compliant (keycard.py lines 115-143). -/
def is_compliant (s : Schema) (e : Entry) : RetVal :=
  if e.type ∉ ["User", "Organization"] then
    RetVal.err "UnsupportedKeycardType" ("unsupported card type " ++ e.type)
  else
    match firstMissingRequired s.required_fields e.fields with
    | some f => RetVal.err "RequiredFieldMissing" ("missing field " ++ f)
    | none =>
      match firstSigIssue s.signature_info e with
      | some r => r
      | none => RetVal.ok

/-- The signature-clearing loop inside sign (keycard.py lines 314-325):
walk the slot names with indices; once the requested name is seen, blank
every slot from there on; remember the (last) index where it was seen. -/
def signClearLoop (names : List String) (sigtype : String)
    (sigs : List (String × String)) : List (String × String) × Bool × Nat :=
  names.enum.foldl
    (fun st p =>
      let cs := if p.2 = sigtype then true else st.2.1
      let idx := if p.2 = sigtype then p.1 else st.2.2
      let sigs := if cs then fset st.1 p.2 "" else st.1
      (sigs, cs, idx))
    (sigs, false, 0)

/-- sign (keycard.py lines 295-330).  `sigOf key data` stands for the
Base85-encoded Ed25519 signature PyNaCl produces over the canonical bytes
`data` with the signing key whose Base85 seed text is `key`. -/
def sign (sigOf : String → List String → String) (s : Schema) (e : Entry)
    (signing_key : AlgoString) (sigtype : String) : RetVal × Entry :=
  if ¬ algoIsValid signing_key then
    (RetVal.err "BadParameterValue" "signing key", e)
  else if signing_key.pfx ≠ "ED25519" then
    (RetVal.err "UnsupportedEncryptionType" signing_key.pfx, e)
  else
    let sig_names := s.signature_info.map (fun x => x.name)
    if sigtype ∉ sig_names then
      (RetVal.err "BadParameterValue" "sigtype", e)
    else
      let st := signClearLoop sig_names sigtype e.signatures
      let cleared : Entry := { e with signatures := st.1 }
      let data := make_bytestring s cleared ((st.2.2 : Int) + 1)
      (RetVal.ok,
        { cleared with
            signatures := fset cleared.signatures sigtype
              ("ED25519:" ++ sigOf signing_key.data data) })

/-- generate_hash (keycard.py lines 332-364).  `digestOf algo data` stands
for the Base85-encoded digest the corresponding hashlib/blake3 object
produces over the canonical bytes.  A schema without a HASH slot (or with a
zero level) trips the source's assert; that exceptional exit is modelled as
an AssertionError code and is unreachable for the two real schemas. -/
def generate_hash (digestOf : String → List String → String) (s : Schema)
    (e : Entry) (algorithm : String) : RetVal × Entry :=
  if algorithm ∉ ["BLAKE3-256", "BLAKE2", "SHA-256", "SHA3-256"] then
    (RetVal.err "UnsupportedHashType"
      (algorithm ++ " not a support hash algorithm"), e)
  else
    match s.signature_info.find? (fun si => si.sigType = SIGINFO_HASH) with
    | none =>
      (RetVal.err "AssertionError" "BUG: signature_info missing hash entry", e)
    | some si =>
      if si.level = 0 then
        (RetVal.err "AssertionError" "BUG: signature_info missing hash entry",
          e)
      else
        let hs :=
          algorithm ++ ":" ++ digestOf algorithm
            (make_bytestring s e (si.level : Int))
        ((RetVal.ok).withStr "hash" hs, { e with hash := hs })

/-- verify_signature (keycard.py lines 366-398).
`cryptoVerify vkeyData data sigData` stands for the PyNaCl tail: `none`
models the exception VerifyKey construction may throw (caught and converted
to ExceptionThrown), `some b` the boolean outcome of Ed25519
verification. -/
def verify_signature (cryptoVerify : String → List String → String → Option Bool)
    (s : Schema) (e : Entry) (verify_key : AlgoString) (sigtype : String) :
    RetVal :=
  if ¬ algoIsValid verify_key then
    RetVal.err "BadParameterValue" "bad verify key"
  else
    let sig_names := s.signature_info.map (fun x => x.name)
    if sigtype ∉ sig_names then
      RetVal.err "BadParameterValue" "bad signature type"
    else if verify_key.pfx ≠ "ED25519" then
      RetVal.err "UnsupportedEncryptionType" verify_key.pfx
    else
      match fget e.signatures sigtype with
      | some "" => RetVal.err "NotCompliant" ("empty signature " ++ sigtype)
      | none => RetVal.err "KeyError" sigtype
      | some sv =>
        match algoSet sv with
        | none => RetVal.err "BadParameterValue" "data is not colon-separated"
        | some sig =>
          match cryptoVerify verify_key.data
              (make_bytestring s e ((sig_names.indexOf sigtype : Nat) : Int))
              sig.data with
          | none => RetVal.err "ExceptionThrown" ""
          | some false => RetVal.err "InvalidKeycard" ""
          | some true => RetVal.ok

/-- The tail of one iteration of the parsing loop in EntryBase.set
(keycard.py lines 262-273): dispatch on the already-split key/value pair. -/
def entrySetKV (e : Entry) (k v : String) : RetVal × Entry :=
  if k = "Type" then
    if v ≠ e.type then
      (RetVal.err "BadData"
        ("can not use " ++ k ++ " data on a " ++ e.type ++ " entry"), e)
    else (RetVal.ok, e)
  else if pyEndsWith k "Signature" then
    let s0 := match pySplitOnce k '-' with
      | none => k
      | some p => p.1
    if s0 ∉ ["Custody", "User", "Organization", "Entry"] then
      (RetVal.err "BadData" ("bad signature line " ++ s0), e)
    else (RetVal.ok, { e with signatures := fset e.signatures s0 v })
  else (RetVal.ok, { e with fields := fset e.fields k v })

/-- One iteration of the parsing loop in EntryBase.set (keycard.py lines
249-273): process a single CRLF-delimited line against the entry state. -/
def entrySetLine (e : Entry) (line : String) : RetVal × Entry :=
  if line = "" then (RetVal.ok, e)
  else
    let stripped := pyStrip line
    if stripped = "" then (RetVal.ok, e)
    else
      match pySplitOnce stripped ':' with
      | none => (RetVal.err "BadData" line, e)
      | some (k, v) => entrySetKV e k v

/-- EntryBase.set (keycard.py lines 241-275) over the list of lines: stop at
the first bad line (the mutations made so far persist, as in the source). -/
def entrySetLines : Entry → List String → RetVal × Entry
  | e, [] => (RetVal.ok, e)
  | e, line :: rest =>
    let r := entrySetLine e line
    if r.1.code = "" then entrySetLines r.2 rest else r

/-- int(fields[k]) wrapped: `none` covers both a missing key (KeyError) and
an unparseable value (ValueError), which the source catches together. -/
def pyIntOf (fs : List (String × String)) (k : String) : Option Int :=
  (fget fs k).bind pyToInt

/-- The key material OrgEntry.chain generates (nacl generate calls), passed
in explicitly: Base85 public/private texts of the primary signing pair, the
encryption pair, and the optional new secondary signing pair. -/
structure OrgGen where
  signPub : String
  signPriv : String
  encryptPub : String
  encryptPriv : String
  altsignPub : String
  altsignPriv : String
deriving DecidableEq, Repr

/-- OrgEntry.chain (keycard.py lines 439-491). -/
def org_chain (sigOf : String → List String → String) (g : OrgGen)
    (e : Entry) (key : AlgoString) (rotate_optional : Bool) : RetVal :=
  if key.pfx ≠ "ED25519" then
    RetVal.err "BadParameterValue" ("wrong key type " ++ key.pfx)
  else
    let status := is_compliant orgSchema e
    if status.code ≠ "" then status
    else
      let ne0 : Entry :=
        { type := "Organization", fields := e.fields, signatures := [],
          prev_hash := "", hash := "" }
      match pyIntOf ne0.fields "Index" with
      | none => RetVal.err "BadData" "invalid entry index"
      | some index =>
        let ne1 : Entry :=
          { ne0 with fields := fset ne0.fields "Index" (pyStr (index + 1)) }
        let out0 :=
          ((((RetVal.ok.withStr "sign.public" ("ED25519:" ++ g.signPub)).withStr
              "sign.private" ("ED25519:" ++ g.signPriv)).withStr
              "encrypt.public" ("CURVE25519:" ++ g.encryptPub)).withStr
              "encrypt.private" ("CURVE25519:" ++ g.encryptPriv))
        let out1 :=
          if rotate_optional then
            (out0.withStr "altsign.public" ("ED25519:" ++ g.altsignPub)).withStr
              "altsign.private" ("ED25519:" ++ g.altsignPriv)
          else
            (out0.withStr "altsign.public"
              ((fget e.fields "Primary-Verification-Key").getD "")).withStr
              "altsign.private" ""
        let signed := sign sigOf orgSchema ne1 key "Custody"
        if signed.1.code ≠ "" then signed.1
        else out1.withEnt "entry" signed.2

/-- The key material UserEntry.chain generates, passed in explicitly. -/
structure UserGen where
  signPub : String
  signPriv : String
  crsignPub : String
  crsignPriv : String
  crencryptPub : String
  crencryptPriv : String
  encryptPub : String
  encryptPriv : String
  altencryptPub : String
  altencryptPriv : String
deriving DecidableEq, Repr

/-- UserEntry.chain (keycard.py lines 563-632). -/
def user_chain (sigOf : String → List String → String) (g : UserGen)
    (e : Entry) (key : AlgoString) (rotate_optional : Bool) : RetVal :=
  if key.pfx ≠ "ED25519" then
    RetVal.err "BadParameterValue" ("wrong key type " ++ key.pfx)
  else
    let status := is_compliant userSchema e
    if status.code ≠ "" then status
    else
      let ne0 : Entry :=
        { type := "User", fields := e.fields, signatures := [],
          prev_hash := "", hash := "" }
      match pyIntOf ne0.fields "Index" with
      | none => RetVal.err "BadData" "invalid entry index"
      | some index =>
        let ne1 : Entry :=
          { ne0 with fields := fset ne0.fields "Index" (pyStr (index + 1)) }
        let out0 :=
          ((((((RetVal.ok.withStr "sign.public"
              ("ED25519:" ++ g.signPub)).withStr
              "sign.private" ("ED25519:" ++ g.signPriv)).withStr
              "crsign.public" ("ED25519:" ++ g.crsignPub)).withStr
              "crsign.private" ("ED25519:" ++ g.crsignPriv)).withStr
              "crencrypt.public" ("CURVE25519:" ++ g.crencryptPub)).withStr
              "crencrypt.private" ("CURVE25519:" ++ g.crencryptPriv))
        let crFields :=
          fset (fset ne1.fields "Contact-Request-Verification-Key"
              ("ED25519:" ++ g.crsignPub))
            "Contact-Request-Encryption-Key" ("CURVE25519:" ++ g.crencryptPub)
        let ne2 : Entry := { ne1 with fields := crFields }
        let stage :=
          if rotate_optional then
            let out1 :=
              ((((out0.withStr "encrypt.public"
                  ("CURVE25519:" ++ g.encryptPub)).withStr
                  "encrypt.private" ("CURVE25519:" ++ g.encryptPriv)).withStr
                  "altencrypt.public" ("CURVE25519:" ++ g.altencryptPub)).withStr
                  "altencrypt.private" ("CURVE25519:" ++ g.altencryptPriv))
            let encFields :=
              fset (fset ne2.fields "Public-Encryption-Key"
                  ("CURVE25519:" ++ g.encryptPub))
                "Alternate-Encryption-Key" ("CURVE25519:" ++ g.altencryptPub)
            let ne3 : Entry := { ne2 with fields := encFields }
            (out1, ne3)
          else
            let out1 :=
              ((((out0.withStr "encrypt.public" "").withStr
                  "encrypt.private" "").withStr
                  "altencrypt.public" "").withStr
                  "altencrypt.private" "")
            (out1, ne2)
        let signed := sign sigOf userSchema stage.2 key "Custody"
        if signed.1.code ≠ "" then signed.1
        else stage.1.withEnt "entry" signed.2

/-- `k not in d or not d[k]`: the missing-or-empty test the verify_chain
methods use. -/
def dictMissingOrEmpty (fs : List (String × String)) (k : String) : Bool :=
  match fget fs k with
  | some v => v == ""
  | none => true

/-- OrgEntry.verify_chain (keycard.py lines 493-521). -/
def org_verify_chain
    (cryptoVerify : String → List String → String → Option Bool)
    (e previous : Entry) : RetVal :=
  if previous.type ≠ "Organization" then
    RetVal.err "BadParameterValue" "entry type mismatch"
  else if dictMissingOrEmpty e.signatures "Custody" then
    RetVal.err "ResourceNotFound" "custody signature missing"
  else if dictMissingOrEmpty previous.fields "Primary-Verification-Key" then
    RetVal.err "ResourceNotFound" "signing key missing"
  else
    match pyIntOf previous.fields "Index" with
    | none => RetVal.err "BadData" "previous entry has a bad index"
    | some prev_index =>
      match pyIntOf e.fields "Index" with
      | none => RetVal.err "BadData" "current entry has a bad index"
      | some index =>
        if index ≠ prev_index + 1 then
          RetVal.err "InvalidKeycard" "entry index compliance failure"
        else
          verify_signature cryptoVerify orgSchema e
            (algoOfString
              ((fget previous.fields "Primary-Verification-Key").getD ""))
            "Custody"

/-- UserEntry.verify_chain (keycard.py lines 634-649).  Unlike the
organization version it performs no Index check. -/
def user_verify_chain
    (cryptoVerify : String → List String → String → Option Bool)
    (e previous : Entry) : RetVal :=
  if previous.type ≠ "User" then
    RetVal.err "BadParameterValue" "entry type mismatch"
  else if dictMissingOrEmpty e.signatures "Custody" then
    RetVal.err "ResourceNotFound" "custody signature missing"
  else if dictMissingOrEmpty previous.fields "Contact-Request-Verification-Key" then
    RetVal.err "ResourceNotFound" "signing key missing"
  else
    verify_signature cryptoVerify userSchema e
      (algoOfString
        ((fget previous.fields "Contact-Request-Verification-Key").getD ""))
      "Custody"

/-- A keycard (keycard.py lines 652-656): a card type tag and the ordered
entry list. -/
structure Keycard where
  ktype : String
  entries : List Entry
deriving DecidableEq, Repr

/-- Keycard.chain (keycard.py lines 658-687).  The method dispatches on the
dynamic class of the last entry (only OrgEntry and UserEntry define chain),
then always signs the freshly chained entry at the slot named "User". -/
def keycard_chain (sigOf : String → List String → String) (og : OrgGen)
    (ug : UserGen) (kc : Keycard) (key : AlgoString) (rotate_optional : Bool) :
    RetVal × Keycard :=
  match kc.entries.getLast? with
  | none => (RetVal.err "ResourceNotFound" "missing root entry", kc)
  | some last =>
    let chaindata :=
      if last.type = "Organization" then
        org_chain sigOf og last key rotate_optional
      else if last.type = "User" then
        user_chain sigOf ug last key rotate_optional
      else
        RetVal.err "FeatureNotAvailable" "entry does not support chaining"
    if chaindata.code ≠ "" then (chaindata, kc)
    else
      match chaindata.entField "entry" with
      | none => (RetVal.err "KeyError" "entry", kc)
      | some ne =>
        match algoSet ((chaindata.strField "sign.private").getD "") with
        | none =>
          (RetVal.err "BadParameterValue" "data is not colon-separated", kc)
        | some skeystring =>
          let signed := sign sigOf (schemaOf ne.type) ne skeystring "User"
          if signed.1.code ≠ "" then (signed.1, kc)
          else
            (chaindata.withEnt "entry" signed.2,
              { kc with entries := kc.entries ++ [signed.2] })

/-- check_password_complexity (encryption.py lines 392-429): the password
score.  [A-Z] and [a-z] are literal ASCII ranges in the source; the
non-ASCII test (encode then decode as ascii) is exact; the digit class
of the source's regex matches the Unicode decimal digits, category Nd,
modelled below by the full range table. -/
def pwHasNonAscii (s : String) : Bool := s.data.any (fun c => c.toNat ≥ 128)

/-- The Unicode category-Nd codepoint ranges (decimal digits), the set the
source's regex digit class matches on str input.  Each pair is an inclusive
range of ten consecutive digits 0-9 of one script, except 120782-120831
(the mathematical alphanumeric digits, five decades). -/
def pyNdRanges : List (Nat × Nat) :=
  [(48, 57), (1632, 1641), (1776, 1785), (1984, 1993), (2406, 2415),
   (2534, 2543), (2662, 2671), (2790, 2799), (2918, 2927), (3046, 3055),
   (3174, 3183), (3302, 3311), (3430, 3439), (3558, 3567), (3664, 3673),
   (3792, 3801), (3872, 3881), (4160, 4169), (4240, 4249), (6112, 6121),
   (6160, 6169), (6470, 6479), (6608, 6617), (6784, 6793), (6800, 6809),
   (6992, 7001), (7088, 7097), (7232, 7241), (7248, 7257), (42528, 42537),
   (43216, 43225), (43264, 43273), (43472, 43481), (43504, 43513),
   (43600, 43609), (44016, 44025), (65296, 65305), (66720, 66729),
   (68912, 68921), (69734, 69743), (69872, 69881), (69942, 69951),
   (70096, 70105), (70384, 70393), (70736, 70745), (70864, 70873),
   (71248, 71257), (71360, 71369), (71472, 71481), (71904, 71913),
   (72016, 72025), (72784, 72793), (73040, 73049), (73120, 73129),
   (92768, 92777), (92864, 92873), (93008, 93017), (120782, 120831),
   (123200, 123209), (123632, 123641), (125264, 125273), (130032, 130041)]

/-- A Unicode decimal digit (category Nd). -/
def pyIsDecDigit (c : Char) : Bool :=
  pyNdRanges.any (fun p => p.1 ≤ c.toNat && c.toNat ≤ p.2)

def pwHasDigit (s : String) : Bool := s.data.any pyIsDecDigit

def pwHasUpper (s : String) : Bool := s.data.any Char.isUpper

def pwHasLower (s : String) : Bool := s.data.any Char.isLower

/-- The punctuation character class of encryption.py line 421. -/
def pwPunctChars : List Char :=
  ['~', Char.ofNat 96, '!', '@', '#', '$', '%', Char.ofNat 94, '&', '*',
   '(', ')', '_', '=', Char.ofNat 123, Char.ofNat 125, '/', '<', '>', ',',
   '.', ':', ';', '|', Char.ofNat 39, '[', ']', Char.ofNat 34,
   Char.ofNat 92, '-', '+', '?']

def pwHasPunct (s : String) : Bool := s.data.any (fun c => c ∈ pwPunctChars)

/-- The strength score of check_password_complexity. -/
def pwScore (s : String) : Nat :=
  (if pwHasNonAscii s then 1 else 0) + (if pwHasDigit s then 1 else 0) +
    (if pwHasUpper s then 1 else 0) + (if pwHasLower s then 1 else 0) +
    (if pwHasPunct s then 1 else 0)

/-- The strength label list of encryption.py line 403. -/
def pwStrengthStrings : List String :=
  ["error", "very weak", "weak", "medium", "strong", "very strong"]

/-- check_password_complexity (encryption.py lines 392-429). -/
def check_password_complexity (indata : String) : RetVal :=
  if indata.length < 8 then
    (RetVal.err "BadParameterValue"
      "Passphrase must be at least 8 characters.").withStr "strength"
      "very weak"
  else
    if (indata.length < 12 ∧ pwScore indata < 3) ∨ pwScore indata < 2 then
      (RetVal.err "BadParameterValue" "passphrase too weak").withStr
        "strength" (pwStrengthStrings.getD (pwScore indata) "")
    else
      RetVal.ok.withStr "strength" (pwStrengthStrings.getD (pwScore indata) "")

/-! ## Concrete fixtures used by witnesses and counterexamples -/

/-- A concrete stand-in for the Ed25519 signing primitive. -/
def cexSigOf : String → List String → String := fun _ _ => "CSIG"

/-- A concrete stand-in for the digest primitives. -/
def cexDigestOf : String → List String → String := fun _ _ => "DIG"

/-- Concrete freshly-minted org key material. -/
def cexOrgGen : OrgGen := ⟨"NEWPK", "NEWSK", "NEWEK", "NEWEK2", "NEWALT", "NEWALT2"⟩

/-- Concrete freshly-minted user key material. -/
def cexUserGen : UserGen :=
  ⟨"UPK", "USK", "UCRPK", "UCRSK", "UCREK", "UCREK2", "UEK", "UEK2", "UAEK", "UAEK2"⟩

/-- A concrete well-formed Ed25519 signing key. -/
def cexKey : AlgoString := ⟨"ED25519", "KEYDATA"⟩

/-- A concrete compliant Organization entry with a stored hash. -/
def cexOrgPrev : Entry :=
  { type := "Organization"
    fields := [("Index", "1"), ("Name", "Acme"), ("Contact-Admin", "admin"),
      ("Primary-Verification-Key", "ED25519:PRIMK"),
      ("Secondary-Verification-Key", "ED25519:OLDSEC"),
      ("Encryption-Key", "CURVE25519:ENCK"), ("Time-To-Live", "30"),
      ("Expires", "20270101")]
    signatures := [("Organization", "ED25519:OSIG")]
    prev_hash := ""
    hash := "BLAKE3-256:PREVHASH" }

/-- A concrete compliant User entry with a stored hash. -/
def cexUserRoot : Entry :=
  { type := "User"
    fields := [("Index", "1"), ("Workspace-ID", "wid"), ("Domain", "example.com"),
      ("Contact-Request-Verification-Key", "ED25519:CRK"),
      ("Contact-Request-Encryption-Key", "CURVE25519:CREK"),
      ("Public-Encryption-Key", "CURVE25519:PEK"), ("Time-To-Live", "7"),
      ("Expires", "20260301")]
    signatures := [("Custody", "ED25519:UCSIG"),
      ("Organization", "ED25519:UOSIG"), ("User", "ED25519:UUSIG")]
    prev_hash := ""
    hash := "BLAKE3-256:UHASH" }

/-- A previous User entry for the chain-gap scenario (Index 1, has the
contact-request verification key). -/
def cexUserPrev : Entry :=
  { type := "User"
    fields := [("Index", "1"),
      ("Contact-Request-Verification-Key", "ED25519:CRK")]
    signatures := []
    prev_hash := ""
    hash := "" }

/-- A current User entry whose Index was manually set to 3 while carrying a
Custody signature. -/
def cexUserCur : Entry :=
  { type := "User"
    fields := [("Index", "3")]
    signatures := [("Custody", "ED25519:CUSSIG")]
    prev_hash := ""
    hash := "" }

/-- A current Organization entry whose Index was manually set to 3 while
carrying a Custody signature. -/
def cexOrgCur : Entry :=
  { type := "Organization"
    fields := [("Index", "3")]
    signatures := [("Custody", "ED25519:OCSIG")]
    prev_hash := ""
    hash := "" }

/-! ## Association-list helper lemmas -/

theorem fget_map_overwrite {α : Type} (k : String) (v : α) :
    ∀ fs : List (String × α), (fs.find? (fun p => p.1 == k)).isSome = true →
      fget (fs.map (fun p => if p.1 == k then (k, v) else p)) k = some v := by
  intro fs
  induction fs with
  | nil => simp
  | cons hd tl ih =>
    intro h
    by_cases hk : hd.1 = k
    · simp [fget, List.find?, hk]
    · have hk' : (hd.1 == k) = false := by simp [hk]
      simp only [List.find?_cons, hk', cond_false] at h
      simpa [fget, List.find?, hk'] using ih h

theorem fget_map_overwrite_ne {α : Type} (k k' : String) (v : α)
    (hne : k' ≠ k) :
    ∀ fs : List (String × α),
      fget (fs.map (fun p => if p.1 == k then (k, v) else p)) k' = fget fs k' := by
  intro fs
  induction fs with
  | nil => simp
  | cons hd tl ih =>
    by_cases hk : hd.1 = k
    · have h2 : (hd.1 == k') = false := by
        simp only [beq_eq_false_iff_ne]
        rw [hk]
        exact Ne.symm hne
      have hkk : (k == k') = false := by
        simp only [beq_eq_false_iff_ne]
        exact Ne.symm hne
      simp only [List.map_cons, hk]
      simp only [fget, List.find?_cons, hkk, h2, cond_false, beq_self_eq_true,
        if_true]
      exact ih
    · have hk' : (hd.1 == k) = false := by simp [hk]
      simp only [List.map_cons, hk', Bool.false_eq_true, if_false]
      by_cases h2 : hd.1 = k'
      · simp [fget, List.find?, h2]
      · have h2' : (hd.1 == k') = false := by simp [h2]
        simp only [fget, List.find?_cons, h2', cond_false]
        exact ih

theorem fget_fset_self {α : Type} (fs : List (String × α)) (k : String)
    (v : α) : fget (fset fs k v) k = some v := by
  unfold fset
  by_cases h : (fs.find? (fun p => p.1 == k)).isSome = true
  · simpa [h] using fget_map_overwrite k v fs h
  · simp only [h, Bool.false_eq_true, if_false]
    unfold fget
    rw [List.find?_append]
    have h0 : fs.find? (fun p => p.1 == k) = none := by
      cases hf : fs.find? (fun p => p.1 == k) with
      | none => rfl
      | some x => simp [hf] at h
    simp [h0, List.find?]

theorem fget_fset_ne {α : Type} (fs : List (String × α)) (k k' : String)
    (v : α) (hne : k' ≠ k) : fget (fset fs k v) k' = fget fs k' := by
  unfold fset
  by_cases h : (fs.find? (fun p => p.1 == k)).isSome = true
  · simpa [h] using fget_map_overwrite_ne k k' v hne fs
  · simp only [h, Bool.false_eq_true, if_false]
    unfold fget
    rw [List.find?_append]
    have hkk : (k == k') = false := by
      simp only [beq_eq_false_iff_ne]
      exact Ne.symm hne
    cases hf : fs.find? (fun p => p.1 == k') with
    | none => simp [hf, List.find?, hkk]
    | some x => simp [hf]

/-! ## Shared structural lemmas about sign -/

/-- sign touches only the signatures dictionary: type, fields, prev_hash and
hash come through unchanged on every branch, success or error. -/
theorem sign_preserves_rest (sigOf : String → List String → String)
    (s : Schema) (e : Entry) (key : AlgoString) (sigtype : String) :
    (sign sigOf s e key sigtype).2.type = e.type ∧
      (sign sigOf s e key sigtype).2.fields = e.fields ∧
      (sign sigOf s e key sigtype).2.prev_hash = e.prev_hash ∧
      (sign sigOf s e key sigtype).2.hash = e.hash := by
  unfold sign
  dsimp only
  repeat' split
  all_goals exact ⟨rfl, rfl, rfl, rfl⟩

/-! ## Claim theorems -/

/-- C6: after any `set_field(name, value)` on any entry of either type,
whatever the prior state, the signatures mapping is empty and the hash is
the empty string. -/
theorem c6_set_field_clears_signatures_and_hash (e : Entry)
    (field_name field_value : String) :
    (set_field e field_name field_value).signatures = [] ∧
      (set_field e field_name field_value).hash = "" :=
  ⟨rfl, rfl⟩

/-- C10: sign never modifies the entry's stored hash (nor prev_hash): after
sign(key, slot) on any entry state and any slot the hash attribute holds
exactly its prior value; only the signatures dictionary is touched. -/
theorem c10_sign_preserves_hash_and_prev_hash
    (sigOf : String → List String → String) (s : Schema) (e : Entry)
    (key : AlgoString) (sigtype : String) :
    (sign sigOf s e key sigtype).2.hash = e.hash ∧
      (sign sigOf s e key sigtype).2.prev_hash = e.prev_hash := by
  have h := sign_preserves_rest sigOf s e key sigtype
  exact ⟨h.2.2.2, h.2.2.1⟩

/-- C8: the password complexity check rejects (BadParameterValue, strength
"very weak") any input shorter than 8 characters; otherwise, with the score
counting non-ASCII content, a digit, an uppercase letter, a lowercase
letter and a punctuation character one point each, it rejects exactly when
(length < 12 and score < 3) or score < 2, and reports the strength label
indexed by the score. -/
theorem c8_check_password_complexity (s : String) :
    (s.length < 8 →
      (check_password_complexity s).code = "BadParameterValue" ∧
        (check_password_complexity s).strField "strength" =
          some "very weak") ∧
    (8 ≤ s.length →
      (((s.length < 12 ∧ pwScore s < 3) ∨ pwScore s < 2) →
        (check_password_complexity s).code = "BadParameterValue" ∧
          (check_password_complexity s).strField "strength" =
            some (pwStrengthStrings.getD (pwScore s) "")) ∧
      (¬ ((s.length < 12 ∧ pwScore s < 3) ∨ pwScore s < 2) →
        (check_password_complexity s).code = "" ∧
          (check_password_complexity s).strField "strength" =
            some (pwStrengthStrings.getD (pwScore s) ""))) := by
  refine ⟨fun h => ?_, fun h8 => ⟨fun hrej => ?_, fun hacc => ?_⟩⟩
  · simp only [check_password_complexity, if_pos h]
    exact ⟨rfl, rfl⟩
  · have hn : ¬ s.length < 8 := by omega
    simp only [check_password_complexity, if_neg hn, if_pos hrej]
    exact ⟨rfl, rfl⟩
  · have hn : ¬ s.length < 8 := by omega
    simp only [check_password_complexity, if_neg hn, if_neg hacc]
    exact ⟨rfl, rfl⟩

/-- C8 witness: "Password1" (length 9, score 3) is accepted with strength
"medium". -/
theorem c8_check_password_complexity_witness :
    8 ≤ ("Password1" : String).length ∧
      ¬ ((("Password1" : String).length < 12 ∧ pwScore "Password1" < 3) ∨
        pwScore "Password1" < 2) ∧
      (check_password_complexity "Password1").code = "" ∧
      (check_password_complexity "Password1").strField "strength" =
        some "medium" := by
  have h :=
    ((c8_check_password_complexity "Password1").2 (by decide)).2 (by decide)
  refine ⟨by decide, by decide, h.1, ?_⟩
  have hs : pwStrengthStrings.getD (pwScore "Password1") "" = "medium" := by
    decide
  rw [h.2, hs]

/-- C7 counterexample: the claim's tag "BLAKE2B-256" is rejected with
UnsupportedHashType (hash left unchanged), while the tag "BLAKE2", outside
the claim's set, succeeds. -/
theorem c7_counterexample :
    (generate_hash cexDigestOf orgSchema cexOrgPrev "BLAKE2B-256").1.code =
        "UnsupportedHashType" ∧
      (generate_hash cexDigestOf orgSchema cexOrgPrev "BLAKE2B-256").2 =
        cexOrgPrev ∧
      (generate_hash cexDigestOf orgSchema cexOrgPrev "BLAKE2").1.code =
        "" := by
  exact ⟨rfl, rfl, rfl⟩

/-- C7 (amended): generate_hash(algo) succeeds exactly when algo is one of
BLAKE3-256, BLAKE2, SHA-256, SHA3-256, in which case it stores
hash = algo + ":" + Base85(digest of make_bytestring cut at the Hashes
slot's level, which is 3 for both entry types); for every other tag it
returns UnsupportedHashType and leaves the entry unchanged. -/
theorem c7_generate_hash_amended (digestOf : String → List String → String)
    (s : Schema) (e : Entry) (algorithm : String)
    (hs : s = orgSchema ∨ s = userSchema) :
    (algorithm ∈ ["BLAKE3-256", "BLAKE2", "SHA-256", "SHA3-256"] →
      (generate_hash digestOf s e algorithm).1.code = "" ∧
        (generate_hash digestOf s e algorithm).2.hash =
          algorithm ++ ":" ++ digestOf algorithm (make_bytestring s e 3) ∧
        (generate_hash digestOf s e algorithm).2.fields = e.fields) ∧
    (algorithm ∉ ["BLAKE3-256", "BLAKE2", "SHA-256", "SHA3-256"] →
      (generate_hash digestOf s e algorithm).1.code = "UnsupportedHashType" ∧
        (generate_hash digestOf s e algorithm).2 = e) := by
  constructor
  · intro hmem
    rcases hs with h | h <;> subst h <;>
      simp [generate_hash, hmem, orgSchema, userSchema, SIGINFO_HASH,
        SIGINFO_SIGNATURE, List.find?, RetVal.withStr, RetVal.ok]
  · intro hmem
    simp [generate_hash, hmem, RetVal.err]

/-- C7 witness: SHA-256 succeeds on a user entry, MD5 is rejected. -/
theorem c7_generate_hash_amended_witness :
    ("SHA-256" ∈ ["BLAKE3-256", "BLAKE2", "SHA-256", "SHA3-256"] ∧
      (generate_hash cexDigestOf userSchema cexUserRoot "SHA-256").1.code =
        "") ∧
    ("MD5" ∉ ["BLAKE3-256", "BLAKE2", "SHA-256", "SHA3-256"] ∧
      (generate_hash cexDigestOf userSchema cexUserRoot "MD5").1.code =
        "UnsupportedHashType") := by
  constructor
  · exact ⟨by decide,
      ((c7_generate_hash_amended cexDigestOf userSchema cexUserRoot "SHA-256"
        (Or.inr rfl)).1 (by decide)).1⟩
  · exact ⟨by decide,
      ((c7_generate_hash_amended cexDigestOf userSchema cexUserRoot "MD5"
        (Or.inr rfl)).2 (by decide)).1⟩

/-- Reading back the entry stored by withEnt. -/
theorem entField_withEnt (r : RetVal) (k : String) (x : Entry) :
    (r.withEnt k x).entField k = some x := by
  unfold RetVal.entField RetVal.withEnt
  dsimp only
  rw [fget_fset_self]


/-- C1 (amended): a successful chain(key, rotate_optional) on an entry of
either type produces a new entry of the same type whose Index field equals
prev's Index plus 1 — but the new entry's prev_hash is the EMPTY string,
not prev's hash: chain never copies the hash forward (the repository's own
tests assign new_entry.prev_hash by hand after chaining). -/
theorem c1_chain_index_amended :
    (∀ (sigOf : String → List String → String) (g : OrgGen) (e : Entry)
        (key : AlgoString) (rot : Bool) (i : Int) (ne : Entry),
      pyIntOf e.fields "Index" = some i →
      (org_chain sigOf g e key rot).code = "" →
      (org_chain sigOf g e key rot).entField "entry" = some ne →
      ne.type = "Organization" ∧
        fget ne.fields "Index" = some (pyStr (i + 1)) ∧
        ne.prev_hash = "") ∧
    (∀ (sigOf : String → List String → String) (g : UserGen) (e : Entry)
        (key : AlgoString) (rot : Bool) (i : Int) (ne : Entry),
      pyIntOf e.fields "Index" = some i →
      (user_chain sigOf g e key rot).code = "" →
      (user_chain sigOf g e key rot).entField "entry" = some ne →
      ne.type = "User" ∧
        fget ne.fields "Index" = some (pyStr (i + 1)) ∧
        ne.prev_hash = "") := by
  constructor
  · intro sigOf g e key rot i ne hi hcode hent
    unfold org_chain at hcode hent
    by_cases h1 : key.pfx = "ED25519"
    case neg => simp [h1, RetVal.err] at hcode
    by_cases h2 : (is_compliant orgSchema e).code = ""
    case neg =>
      rw [if_neg (by simpa using h1)] at hcode
      dsimp only at hcode
      rw [if_pos (by simpa using h2)] at hcode
      exact absurd hcode h2
    rw [if_neg (by simpa using h1)] at hcode hent
    dsimp only at hcode hent
    rw [if_neg (by simpa using h2)] at hcode hent
    rw [hi] at hcode hent
    dsimp only at hcode hent
    split at hcode
    · rename_i h3
      exact absurd hcode (by simpa using h3)
    · rename_i h3
      rw [if_neg h3] at hent
      rw [entField_withEnt] at hent
      obtain rfl := (Option.some.injEq _ _).mp hent
      refine ⟨(sign_preserves_rest _ _ _ _ _).1, ?_,
        (sign_preserves_rest _ _ _ _ _).2.2.1⟩
      rw [(sign_preserves_rest _ _ _ _ _).2.1]
      exact fget_fset_self _ _ _
  · intro sigOf g e key rot i ne hi hcode hent
    unfold user_chain at hcode hent
    by_cases h1 : key.pfx = "ED25519"
    case neg => simp [h1, RetVal.err] at hcode
    by_cases h2 : (is_compliant userSchema e).code = ""
    case neg =>
      rw [if_neg (by simpa using h1)] at hcode
      dsimp only at hcode
      rw [if_pos (by simpa using h2)] at hcode
      exact absurd hcode h2
    rw [if_neg (by simpa using h1)] at hcode hent
    dsimp only at hcode hent
    rw [if_neg (by simpa using h2)] at hcode hent
    rw [hi] at hcode hent
    dsimp only at hcode hent
    cases rot
    all_goals simp only [Bool.false_eq_true, if_false, if_true,
      eq_self_iff_true] at hcode hent
    all_goals split at hcode
    · rename_i h3
      exact absurd hcode (by simpa using h3)
    · rename_i h3
      rw [if_neg h3] at hent
      rw [entField_withEnt] at hent
      obtain rfl := (Option.some.injEq _ _).mp hent
      refine ⟨(sign_preserves_rest _ _ _ _ _).1, ?_,
        (sign_preserves_rest _ _ _ _ _).2.2.1⟩
      rw [(sign_preserves_rest _ _ _ _ _).2.1]
      rw [fget_fset_ne _ _ _ _ (by decide), fget_fset_ne _ _ _ _ (by decide)]
      exact fget_fset_self _ _ _
    · rename_i h3
      exact absurd hcode (by simpa using h3)
    · rename_i h3
      rw [if_neg h3] at hent
      rw [entField_withEnt] at hent
      obtain rfl := (Option.some.injEq _ _).mp hent
      refine ⟨(sign_preserves_rest _ _ _ _ _).1, ?_,
        (sign_preserves_rest _ _ _ _ _).2.2.1⟩
      rw [(sign_preserves_rest _ _ _ _ _).2.1]
      rw [fget_fset_ne _ _ _ _ (by decide), fget_fset_ne _ _ _ _ (by decide),
        fget_fset_ne _ _ _ _ (by decide), fget_fset_ne _ _ _ _ (by decide)]
      exact fget_fset_self _ _ _

/-- The entry produced by chaining cexOrgPrev (with either rotation flag):
all fields are copied except Index, the Custody slot carries the modelled
signature, and prev_hash is empty. -/
def cexOrgChained : Entry :=
  { type := "Organization"
    fields := [("Index", "2"), ("Name", "Acme"), ("Contact-Admin", "admin"),
      ("Primary-Verification-Key", "ED25519:PRIMK"),
      ("Secondary-Verification-Key", "ED25519:OLDSEC"),
      ("Encryption-Key", "CURVE25519:ENCK"), ("Time-To-Live", "30"),
      ("Expires", "20270101")]
    signatures := [("Custody", "ED25519:CSIG"), ("Organization", ""),
      ("Hashes", "")]
    prev_hash := ""
    hash := "" }

/-- C1 counterexample: cexOrgPrev is compliant with a non-empty stored
hash; chaining succeeds, yet the new entry's prev_hash is "" and differs
from prev's hash, refuting `new_entry.prev_hash == prev.hash`. -/
theorem c1_counterexample :
    (is_compliant orgSchema cexOrgPrev).code = "" ∧
      (org_chain cexSigOf cexOrgGen cexOrgPrev cexKey false).code = "" ∧
      ((org_chain cexSigOf cexOrgGen cexOrgPrev cexKey false).entField
          "entry").map Entry.prev_hash = some "" ∧
      cexOrgPrev.hash = "BLAKE3-256:PREVHASH" ∧
      ("" : String) ≠ "BLAKE3-256:PREVHASH" := by
  refine ⟨by decide, by decide, by decide, rfl, by decide⟩

/-- C1 witness: the amended theorem applied to the concrete compliant
organization entry. -/
theorem c1_chain_index_amended_witness :
    pyIntOf cexOrgPrev.fields "Index" = some 1 ∧
      (org_chain cexSigOf cexOrgGen cexOrgPrev cexKey true).code = "" ∧
      (org_chain cexSigOf cexOrgGen cexOrgPrev cexKey true).entField
          "entry" = some cexOrgChained ∧
      (cexOrgChained.type = "Organization" ∧
        fget cexOrgChained.fields "Index" = some (pyStr ((1 : Int) + 1)) ∧
        cexOrgChained.prev_hash = "") := by
  refine ⟨by decide, by decide, by decide, ?_⟩
  exact c1_chain_index_amended.1 cexSigOf cexOrgGen cexOrgPrev cexKey true 1
    cexOrgChained (by decide) (by decide) (by decide)

/-- C3: OrgEntry.chain generates fresh keys and returns them in the bundle,
but never writes them into the new entry: the new entry's
Primary-Verification-Key, Secondary-Verification-Key and Encryption-Key are
the copied previous values, contradicting the function's own docstring
("the primary signing key becomes the secondary signing key in the new
entry") and the spec; UserEntry.chain does write its new keys. -/
theorem c3_org_chain_does_not_write_new_keys :
    (org_chain cexSigOf cexOrgGen cexOrgPrev cexKey false).code = "" ∧
      (org_chain cexSigOf cexOrgGen cexOrgPrev cexKey false).strField
          "sign.public" = some "ED25519:NEWPK" ∧
      (org_chain cexSigOf cexOrgGen cexOrgPrev cexKey false).strField
          "encrypt.public" = some "CURVE25519:NEWEK" ∧
      ((org_chain cexSigOf cexOrgGen cexOrgPrev cexKey false).entField
          "entry").map (fun ne => fget ne.fields "Primary-Verification-Key") =
        some (some "ED25519:PRIMK") ∧
      ((org_chain cexSigOf cexOrgGen cexOrgPrev cexKey false).entField
          "entry").map
          (fun ne => fget ne.fields "Secondary-Verification-Key") =
        some (some "ED25519:OLDSEC") ∧
      ((org_chain cexSigOf cexOrgGen cexOrgPrev cexKey false).entField
          "entry").map (fun ne => fget ne.fields "Encryption-Key") =
        some (some "CURVE25519:ENCK") ∧
      fget cexOrgPrev.fields "Primary-Verification-Key" =
        some "ED25519:PRIMK" ∧
      ("ED25519:OLDSEC" : String) ≠ "ED25519:PRIMK" := by
  refine ⟨by decide, by decide, by decide, by decide, by decide, by decide,
    by decide, by decide⟩

/-- C4 (amended): the Index continuity check lives only in
OrgEntry.verify_chain: for Organization pairs with a Custody signature and
the previous primary key present, any Index other than prev+1 yields
InvalidKeycard with info "entry index compliance failure".
UserEntry.verify_chain performs no Index check at all: it proceeds straight
to custody-signature verification, and whenever it returns InvalidKeycard
the info field is empty — never "entry index compliance failure". -/
theorem c4_verify_chain_amended :
    (∀ (cv : String → List String → String → Option Bool) (e prev : Entry)
        (p i : Int),
      prev.type = "Organization" →
      dictMissingOrEmpty e.signatures "Custody" = false →
      dictMissingOrEmpty prev.fields "Primary-Verification-Key" = false →
      pyIntOf prev.fields "Index" = some p →
      pyIntOf e.fields "Index" = some i →
      i ≠ p + 1 →
      org_verify_chain cv e prev =
        RetVal.err "InvalidKeycard" "entry index compliance failure") ∧
    (∀ (cv : String → List String → String → Option Bool) (e prev : Entry),
      (user_verify_chain cv e prev).code = "InvalidKeycard" →
      (user_verify_chain cv e prev).info = "") := by
  constructor
  · intro cv e prev p i h1 h2 h3 h4 h5 h6
    unfold org_verify_chain
    rw [if_neg (by simp [h1]), if_neg (by simp [h2]), if_neg (by simp [h3]),
      h4]
    dsimp only
    rw [h5]
    dsimp only
    rw [if_pos h6]
  · intro cv e prev
    unfold user_verify_chain verify_signature
    dsimp only
    repeat' split
    all_goals simp [RetVal.err, RetVal.ok]

/-- C4 counterexample: a User pair with prev Index 1 and current Index 3
(custody signature and CR verification key present).  With failing
cryptographic verification the result is InvalidKeycard with EMPTY info,
not "entry index compliance failure"; with succeeding verification the
chain check passes outright — the claimed error never appears. -/
theorem c4_counterexample :
    pyIntOf cexUserPrev.fields "Index" = some 1 ∧
      pyIntOf cexUserCur.fields "Index" = some 3 ∧
      (user_verify_chain (fun _ _ _ => some false) cexUserCur
          cexUserPrev).code = "InvalidKeycard" ∧
      (user_verify_chain (fun _ _ _ => some false) cexUserCur
          cexUserPrev).info ≠ "entry index compliance failure" ∧
      (user_verify_chain (fun _ _ _ => some true) cexUserCur
          cexUserPrev).code = "" := by
  refine ⟨by decide, by decide, by decide, by decide, by decide⟩

/-- C4 witness: the amended theorem's Organization half applied to a
concrete gapped pair (Index 3 after Index 1). -/
theorem c4_verify_chain_amended_witness :
    cexOrgPrev.type = "Organization" ∧
      dictMissingOrEmpty cexOrgCur.signatures "Custody" = false ∧
      dictMissingOrEmpty cexOrgPrev.fields "Primary-Verification-Key" =
        false ∧
      pyIntOf cexOrgPrev.fields "Index" = some 1 ∧
      pyIntOf cexOrgCur.fields "Index" = some 3 ∧
      (3 : Int) ≠ 1 + 1 ∧
      org_verify_chain (fun _ _ _ => some false) cexOrgCur cexOrgPrev =
        RetVal.err "InvalidKeycard" "entry index compliance failure" := by
  refine ⟨rfl, by decide, by decide, by decide, by decide, by decide, ?_⟩
  exact c4_verify_chain_amended.1 (fun _ _ _ => some false) cexOrgCur
    cexOrgPrev 1 3 rfl (by decide) (by decide) (by decide) (by decide)
    (by decide)

/-- Rebuilding a string from its character list. -/
theorem string_mk_data : ∀ s : String, String.mk s.data = s := fun ⟨_⟩ => rfl

theorem ed25519_data (x : String) :
    ("ED25519:" ++ x).data =
      'E' :: 'D' :: '2' :: '5' :: '5' :: '1' :: '9' :: ':' :: x.data := by
  rw [String.data_append]
  rfl

/-- Splitting an "ED25519:"-prefixed string at the first colon. -/
theorem pySplitOnce_ed25519 (x : String) :
    pySplitOnce ("ED25519:" ++ x) ':' = some ("ED25519", x) := by
  unfold pySplitOnce
  rw [ed25519_data]
  simp [splitOnceChar, string_mk_data]

/-- algoSet on an "ED25519:"-prefixed string. -/
theorem algoSet_ed25519 (x : String) :
    algoSet ("ED25519:" ++ x) = some ⟨"ED25519", x⟩ := by
  unfold algoSet
  rw [pySplitOnce_ed25519]
  rfl

/-- A successful org chain always carries the minted primary private key
under "sign.private" and the chained entry (an Organization entry) under
"entry". -/
theorem org_chain_success_fields (sigOf : String → List String → String)
    (g : OrgGen) (e : Entry) (key : AlgoString) (rot : Bool)
    (h : (org_chain sigOf g e key rot).code = "") :
    (org_chain sigOf g e key rot).strField "sign.private" =
      some ("ED25519:" ++ g.signPriv) ∧
    ∃ ne, (org_chain sigOf g e key rot).entField "entry" = some ne ∧
      ne.type = "Organization" := by
  unfold org_chain at h ⊢
  by_cases h1 : key.pfx = "ED25519"
  case neg => simp [h1, RetVal.err] at h
  by_cases h2 : (is_compliant orgSchema e).code = ""
  case neg =>
    rw [if_neg (by simpa using h1)] at h
    dsimp only at h
    rw [if_pos (by simpa using h2)] at h
    exact absurd h h2
  rw [if_neg (by simpa using h1)] at h ⊢
  dsimp only at h ⊢
  rw [if_neg (by simpa using h2)] at h ⊢
  cases hi : pyIntOf e.fields "Index" with
  | none =>
    rw [hi] at h
    simp [RetVal.err] at h
  | some i =>
    rw [hi] at h
    dsimp only at h ⊢
    split at h
    · rename_i h3
      exact absurd h (by simpa using h3)
    · rename_i h3
      rw [if_neg h3]
      constructor
      · cases rot <;>
          simp [RetVal.withStr, RetVal.withEnt, RetVal.strField, RetVal.ok,
            fset, fget, List.find?]
      · refine ⟨(sign sigOf orgSchema
          { type := "Organization",
            fields := fset e.fields "Index" (pyStr (i + 1)),
            signatures := [], prev_hash := "", hash := "" } key
          "Custody").2, ?_, (sign_preserves_rest _ _ _ _ _).1⟩
        exact entField_withEnt _ _ _

/-- C9: Keycard.chain always signs the freshly chained entry at the slot
named "User"; an Organization entry has no such slot, so for every keycard
whose last entry is an Organization entry the method returns an error and
leaves the entries list unchanged — and whenever the per-entry chain step
itself succeeds the error is exactly BadParameterValue with info "sigtype".
Chaining can never append to an organization keycard through this
method. -/
theorem c9_keycard_chain_org_always_errors
    (sigOf : String → List String → String) (og : OrgGen) (ug : UserGen)
    (kc : Keycard) (key : AlgoString) (rot : Bool)
    (h : ∀ e, kc.entries.getLast? = some e → e.type = "Organization") :
    (keycard_chain sigOf og ug kc key rot).1.code ≠ "" ∧
      (keycard_chain sigOf og ug kc key rot).2 = kc ∧
      (∀ e, kc.entries.getLast? = some e →
        (org_chain sigOf og e key rot).code = "" → og.signPriv ≠ "" →
        (keycard_chain sigOf og ug kc key rot).1 =
          RetVal.err "BadParameterValue" "sigtype") := by
  unfold keycard_chain
  cases hl : kc.entries.getLast? with
  | none =>
    refine ⟨by intro hx; simp [RetVal.err] at hx, rfl, ?_⟩
    intro e he
    exact absurd he (by simp)
  | some last =>
    have ho := h last hl
    dsimp only
    rw [ho]
    rw [if_pos rfl]
    by_cases hc : (org_chain sigOf og last key rot).code = ""
    case neg =>
      rw [if_pos (by simpa using hc)]
      refine ⟨hc, rfl, ?_⟩
      intro e he hchain
      obtain rfl := (Option.some.injEq _ _).mp he
      exact absurd hchain hc
    case pos =>
      rw [if_neg (by simpa using hc)]
      obtain ⟨hsp, ne, hent, hnet⟩ :=
        org_chain_success_fields sigOf og last key rot hc
      rw [hent, hsp]
      dsimp only [Option.getD_some]
      rw [algoSet_ed25519]
      dsimp only
      rw [hnet]
      unfold schemaOf
      rw [if_pos rfl]
      by_cases hp : og.signPriv = ""
      case pos =>
        have hinv : algoIsValid ⟨"ED25519", og.signPriv⟩ = false := by
          simp [algoIsValid, hp]
        have hsign : sign sigOf orgSchema ne ⟨"ED25519", og.signPriv⟩ "User" =
            (RetVal.err "BadParameterValue" "signing key", ne) := by
          unfold sign
          rw [if_pos (by simp [hinv])]
        rw [hsign]
        rw [if_pos (by simp [RetVal.err])]
        refine ⟨by simp [RetVal.err], rfl, ?_⟩
        intro e he hchain hpriv
        exact absurd hp hpriv
      case neg =>
        have hv : algoIsValid ⟨"ED25519", og.signPriv⟩ = true := by
          simp [algoIsValid, hp]
        have hsign : sign sigOf orgSchema ne ⟨"ED25519", og.signPriv⟩ "User" =
            (RetVal.err "BadParameterValue" "sigtype", ne) := by
          unfold sign
          rw [if_neg (by simp [hv])]
          dsimp only
          rw [if_neg (by simp)]
          rw [if_pos (by decide)]
        rw [hsign]
        rw [if_pos (by simp [RetVal.err])]
        refine ⟨by simp [RetVal.err], rfl, fun e he hchain hpriv => rfl⟩

/-- A one-entry organization keycard. -/
def cexOrgCard : Keycard := ⟨"", [cexOrgPrev]⟩

/-- C9 witness: chaining the concrete organization keycard fails with
BadParameterValue/"sigtype" and leaves the card unchanged. -/
theorem c9_keycard_chain_org_always_errors_witness :
    cexOrgCard.entries.getLast? = some cexOrgPrev ∧
      cexOrgPrev.type = "Organization" ∧
      (keycard_chain cexSigOf cexOrgGen cexUserGen cexOrgCard cexKey
          false).1.code ≠ "" ∧
      (keycard_chain cexSigOf cexOrgGen cexUserGen cexOrgCard cexKey
          false).2 = cexOrgCard ∧
      (keycard_chain cexSigOf cexOrgGen cexUserGen cexOrgCard cexKey
          false).1 = RetVal.err "BadParameterValue" "sigtype" := by
  have h := c9_keycard_chain_org_always_errors cexSigOf cexOrgGen cexUserGen
    cexOrgCard cexKey false
    (by
      intro e he
      have h2 := (Option.some.injEq _ _).mp he
      rw [← h2]
      rfl)
  exact ⟨rfl, rfl, h.1, h.2.1,
    h.2.2 cexOrgPrev rfl (by decide) (by decide)⟩

/-- The ordered slot names of a schema (the sig_names list in sign). -/
def sigNames (s : Schema) : List String :=
  s.signature_info.map (fun x => x.name)

/-- The signatures dictionary with every slot from position k on blanked —
the state sign leaves behind before inserting the fresh signature. -/
def sigsClearedFrom (s : Schema) (k : Nat) (sigs : List (String × String)) :
    List (String × String) :=
  ((sigNames s).drop k).foldl (fun fs n => fset fs n "") sigs

/-- C5: for either entry type and every slot k of its signature_info, a
successful sign(key, slot_k) leaves all fields, prev_hash, hash and the
signatures of slots before k unchanged, blanks every slot after k (and
momentarily k itself), and stores at slot_k "ED25519:" followed by the
signature over make_bytestring of that blanked state cut at slot_k's own
level — so the signature does not cover itself. -/
theorem c5_sign_locality (sigOf : String → List String → String)
    (s : Schema) (e : Entry) (key : AlgoString) (k : Nat) (sigtype : String)
    (hs : s = orgSchema ∨ s = userSchema)
    (ht : (sigNames s).get? k = some sigtype)
    (hok : (sign sigOf s e key sigtype).1.code = "") :
    (sign sigOf s e key sigtype).2.fields = e.fields ∧
      (sign sigOf s e key sigtype).2.prev_hash = e.prev_hash ∧
      (sign sigOf s e key sigtype).2.hash = e.hash ∧
      (∀ nj ∈ (sigNames s).take k,
        fget (sign sigOf s e key sigtype).2.signatures nj =
          fget e.signatures nj) ∧
      (∀ nj ∈ (sigNames s).drop (k + 1),
        fget (sign sigOf s e key sigtype).2.signatures nj = some "") ∧
      fget (sign sigOf s e key sigtype).2.signatures sigtype =
        some ("ED25519:" ++ sigOf key.data
          (make_bytestring s
            { e with signatures := sigsClearedFrom s k e.signatures }
            ((((s.signature_info.get? k).map SigInfo.level).getD 0 : Nat) :
              Int))) := by
  rcases hs with rfl | rfl
  · rcases k with _ | _ | _ | k
    · have ht2 := Option.some.inj ht
      subst ht2
      by_cases h1 : algoIsValid key = true
      case neg => simp [sign, h1, RetVal.err] at hok
      by_cases h2 : key.pfx = "ED25519"
      case neg => simp [sign, h1, h2, RetVal.err] at hok
      refine ⟨(sign_preserves_rest _ _ _ _ _).2.1,
        (sign_preserves_rest _ _ _ _ _).2.2.1,
        (sign_preserves_rest _ _ _ _ _).2.2.2, ?_, ?_, ?_⟩
      all_goals
        simp [sign, h1, h2, signClearLoop, sigNames, sigsClearedFrom,
          orgSchema, userSchema, List.enum, List.enumFrom, SIGINFO_HASH,
          SIGINFO_SIGNATURE, fget_fset_ne, fget_fset_self]
    · have ht2 := Option.some.inj ht
      subst ht2
      by_cases h1 : algoIsValid key = true
      case neg => simp [sign, h1, RetVal.err] at hok
      by_cases h2 : key.pfx = "ED25519"
      case neg => simp [sign, h1, h2, RetVal.err] at hok
      refine ⟨(sign_preserves_rest _ _ _ _ _).2.1,
        (sign_preserves_rest _ _ _ _ _).2.2.1,
        (sign_preserves_rest _ _ _ _ _).2.2.2, ?_, ?_, ?_⟩
      all_goals
        simp [sign, h1, h2, signClearLoop, sigNames, sigsClearedFrom,
          orgSchema, userSchema, List.enum, List.enumFrom, SIGINFO_HASH,
          SIGINFO_SIGNATURE, fget_fset_ne, fget_fset_self]
    · have ht2 := Option.some.inj ht
      subst ht2
      by_cases h1 : algoIsValid key = true
      case neg => simp [sign, h1, RetVal.err] at hok
      by_cases h2 : key.pfx = "ED25519"
      case neg => simp [sign, h1, h2, RetVal.err] at hok
      refine ⟨(sign_preserves_rest _ _ _ _ _).2.1,
        (sign_preserves_rest _ _ _ _ _).2.2.1,
        (sign_preserves_rest _ _ _ _ _).2.2.2, ?_, ?_, ?_⟩
      all_goals
        simp [sign, h1, h2, signClearLoop, sigNames, sigsClearedFrom,
          orgSchema, userSchema, List.enum, List.enumFrom, SIGINFO_HASH,
          SIGINFO_SIGNATURE, fget_fset_ne, fget_fset_self]
    · rw [List.get?_eq_none.mpr
          (by simp [sigNames, orgSchema])] at ht
      cases ht
  · rcases k with _ | _ | _ | _ | k
    · have ht2 := Option.some.inj ht
      subst ht2
      by_cases h1 : algoIsValid key = true
      case neg => simp [sign, h1, RetVal.err] at hok
      by_cases h2 : key.pfx = "ED25519"
      case neg => simp [sign, h1, h2, RetVal.err] at hok
      refine ⟨(sign_preserves_rest _ _ _ _ _).2.1,
        (sign_preserves_rest _ _ _ _ _).2.2.1,
        (sign_preserves_rest _ _ _ _ _).2.2.2, ?_, ?_, ?_⟩
      all_goals
        simp [sign, h1, h2, signClearLoop, sigNames, sigsClearedFrom,
          orgSchema, userSchema, List.enum, List.enumFrom, SIGINFO_HASH,
          SIGINFO_SIGNATURE, fget_fset_ne, fget_fset_self]
    · have ht2 := Option.some.inj ht
      subst ht2
      by_cases h1 : algoIsValid key = true
      case neg => simp [sign, h1, RetVal.err] at hok
      by_cases h2 : key.pfx = "ED25519"
      case neg => simp [sign, h1, h2, RetVal.err] at hok
      refine ⟨(sign_preserves_rest _ _ _ _ _).2.1,
        (sign_preserves_rest _ _ _ _ _).2.2.1,
        (sign_preserves_rest _ _ _ _ _).2.2.2, ?_, ?_, ?_⟩
      all_goals
        simp [sign, h1, h2, signClearLoop, sigNames, sigsClearedFrom,
          orgSchema, userSchema, List.enum, List.enumFrom, SIGINFO_HASH,
          SIGINFO_SIGNATURE, fget_fset_ne, fget_fset_self]
    · have ht2 := Option.some.inj ht
      subst ht2
      by_cases h1 : algoIsValid key = true
      case neg => simp [sign, h1, RetVal.err] at hok
      by_cases h2 : key.pfx = "ED25519"
      case neg => simp [sign, h1, h2, RetVal.err] at hok
      refine ⟨(sign_preserves_rest _ _ _ _ _).2.1,
        (sign_preserves_rest _ _ _ _ _).2.2.1,
        (sign_preserves_rest _ _ _ _ _).2.2.2, ?_, ?_, ?_⟩
      all_goals
        simp [sign, h1, h2, signClearLoop, sigNames, sigsClearedFrom,
          orgSchema, userSchema, List.enum, List.enumFrom, SIGINFO_HASH,
          SIGINFO_SIGNATURE, fget_fset_ne, fget_fset_self]
    · have ht2 := Option.some.inj ht
      subst ht2
      by_cases h1 : algoIsValid key = true
      case neg => simp [sign, h1, RetVal.err] at hok
      by_cases h2 : key.pfx = "ED25519"
      case neg => simp [sign, h1, h2, RetVal.err] at hok
      refine ⟨(sign_preserves_rest _ _ _ _ _).2.1,
        (sign_preserves_rest _ _ _ _ _).2.2.1,
        (sign_preserves_rest _ _ _ _ _).2.2.2, ?_, ?_, ?_⟩
      all_goals
        simp [sign, h1, h2, signClearLoop, sigNames, sigsClearedFrom,
          orgSchema, userSchema, List.enum, List.enumFrom, SIGINFO_HASH,
          SIGINFO_SIGNATURE, fget_fset_ne, fget_fset_self]
    · rw [List.get?_eq_none.mpr
          (by simp [sigNames, userSchema])] at ht
      cases ht

/-- C5 witness: signing the concrete organization entry at slot
"Organization" (position 1) succeeds and blanks the later "Hashes" slot. -/
theorem c5_sign_locality_witness :
    (sigNames orgSchema).get? 1 = some "Organization" ∧
      (sign cexSigOf orgSchema cexOrgPrev cexKey "Organization").1.code =
        "" ∧
      fget (sign cexSigOf orgSchema cexOrgPrev cexKey
          "Organization").2.signatures "Hashes" = some "" := by
  refine ⟨rfl, by decide, ?_⟩
  have h := c5_sign_locality cexSigOf orgSchema cexOrgPrev cexKey 1
    "Organization" (Or.inl rfl) rfl (by decide)
  exact h.2.2.2.2.1 "Hashes" (by decide)

/-! ## C2 helper definitions and lemmas -/

def cleanValueB (v : String) : Bool :=
  v.data.all (fun c => ¬(c = '\r' ∨ c = '\n')) &&
    (match v.data.getLast? with
     | none => true
     | some c => !(pyWs c))

def entryClean (e : Entry) : Bool :=
  e.fields.all (fun p => cleanValueB p.2) &&
    e.signatures.all (fun p => cleanValueB p.2) &&
    cleanValueB e.hash && cleanValueB e.prev_hash

def fieldNameOk (n : String) : Bool :=
  n ≠ "Type" && !(pyEndsWith n "Signature") && n.data.all (fun c => c ≠ ':') &&
    !(n.data = []) && !(pyWs (n.data.headD 'A'))

theorem string_data_eq_nil (s : String) : s.data = [] ↔ s = "" := by
  constructor
  · intro h
    have h2 := congrArg String.mk h
    rw [string_mk_data] at h2
    exact h2
  · intro h
    rw [h]

theorem pyStrip_eq_self (s : String)
    (h1 : pyWs (s.data.headD 'A') = false)
    (h2 : ∀ c, s.data.getLast? = some c → pyWs c = false) :
    pyStrip s = s := by
  unfold pyStrip pyStripList
  cases hs : s.data with
  | nil =>
    simp only [hs, List.dropWhile_nil, List.reverse_nil]
    exact ((string_data_eq_nil s).mp hs).symm
  | cons a l =>
    rw [hs] at h1
    simp only [List.headD_cons] at h1
    have hdr : (a :: l).dropWhile pyWs = a :: l := by
      simp [List.dropWhile_cons, h1]
    rw [hdr]
    cases hr : (a :: l).reverse with
    | nil => exact absurd hr (by simp)
    | cons b t =>
      have hb : (a :: l).getLast? = some b := by
        rw [← List.head?_reverse, hr]
        rfl
      have h2b : pyWs b = false := by
        apply h2
        rw [hs]
        exact hb
      have hbt : (b :: t).dropWhile pyWs = b :: t := by
        simp [List.dropWhile_cons, h2b]
      rw [hbt]
      have hrr : (b :: t).reverse = a :: l := by
        rw [← hr, List.reverse_reverse]
      rw [hrr, ← hs, string_mk_data]

theorem splitOnceChar_append (c : Char) (xs ys : List Char)
    (h : c ∉ xs) : splitOnceChar c (xs ++ c :: ys) = some (xs, ys) := by
  induction xs with
  | nil => simp [splitOnceChar]
  | cons a as ih =>
    simp only [List.mem_cons, not_or] at h
    have hac : ¬ a = c := fun hh => h.1 hh.symm
    simp only [List.cons_append, splitOnceChar, if_neg hac, List.append_eq,
      ih h.2]
    rfl

theorem line_data (n v : String) :
    (n ++ ":" ++ v).data = n.data ++ ':' :: v.data := by
  rw [String.data_append, String.data_append, List.append_assoc]
  rfl

theorem pySplitOnce_name (n v : String) (h : ':' ∉ n.data) :
    pySplitOnce (n ++ ":" ++ v) ':' = some (n, v) := by
  unfold pySplitOnce
  rw [line_data, splitOnceChar_append _ _ _ h]
  simp [string_mk_data]

theorem cleanValueB_last (v : String) (h : cleanValueB v = true) :
    ∀ c, v.data.getLast? = some c → pyWs c = false := by
  intro c hc
  unfold cleanValueB at h
  rw [Bool.and_eq_true] at h
  have h2 := h.2
  rw [hc] at h2
  simpa using h2

theorem fieldNameOk_spec (n : String) (h : fieldNameOk n = true) :
    n ≠ "Type" ∧ pyEndsWith n "Signature" = false ∧ ':' ∉ n.data ∧
      n.data ≠ [] ∧ pyWs (n.data.headD 'A') = false := by
  unfold fieldNameOk at h
  simp only [Bool.and_eq_true, decide_eq_true_eq, Bool.not_eq_true',
    List.all_eq_true, decide_eq_false_iff_not] at h
  refine ⟨h.1.1.1.1, h.1.1.1.2, ?_, h.1.2, h.2⟩
  intro hmem
  exact absurd rfl (h.1.1.2 _ hmem)

theorem entrySetLine_wellformed (e : Entry) (n v : String)
    (hn3 : ':' ∉ n.data) (hn4 : n.data ≠ [])
    (hn5 : pyWs (n.data.headD 'A') = false)
    (hv : cleanValueB v = true) :
    entrySetLine e (n ++ ":" ++ v) = entrySetKV e n v := by
  have hdata := line_data n v
  have hne : ¬ (n ++ ":" ++ v) = "" := by
    intro hh
    rw [hh] at hdata
    exact absurd hdata.symm (by simp)
  have hh1 : pyWs ((n ++ ":" ++ v).data.headD 'A') = false := by
    rw [hdata]
    cases hn : n.data with
    | nil => exact absurd hn hn4
    | cons a l =>
      rw [hn] at hn5
      simpa using hn5
  have hh2 : ∀ c, (n ++ ":" ++ v).data.getLast? = some c → pyWs c = false := by
    intro c hc
    rw [hdata, List.getLast?_append] at hc
    cases hv2 : v.data with
    | nil =>
      rw [hv2] at hc
      simp at hc
      rw [← hc]
      rfl
    | cons b bs =>
      rw [hv2, List.getLast?_cons_cons] at hc
      cases hg : (b :: bs).getLast? with
      | none => simp at hg
      | some d =>
        rw [hg] at hc
        have hcd : d = c := by simpa [Option.or] using hc
        subst hcd
        apply cleanValueB_last v hv
        rw [hv2]
        exact hg
  unfold entrySetLine
  rw [if_neg hne]
  dsimp only
  rw [pyStrip_eq_self _ hh1 hh2, if_neg hne, pySplitOnce_name n v hn3]

theorem entrySetKV_field (e : Entry) (n v : String)
    (h : fieldNameOk n = true) :
    entrySetKV e n v = (RetVal.ok, { e with fields := fset e.fields n v }) := by
  obtain ⟨h1, h2, _, _, _⟩ := fieldNameOk_spec n h
  unfold entrySetKV
  rw [if_neg h1, if_neg (by simp [h2])]

theorem entrySetLine_field (e : Entry) (n v : String)
    (h : fieldNameOk n = true) (hv : cleanValueB v = true) :
    entrySetLine e (n ++ ":" ++ v) =
      (RetVal.ok, { e with fields := fset e.fields n v }) := by
  obtain ⟨_, _, h3, h4, h5⟩ := fieldNameOk_spec n h
  rw [entrySetLine_wellformed e n v h3 h4 h5 hv]
  exact entrySetKV_field e n v h

theorem entrySetLine_sig (e : Entry) (sn v : String)
    (hsn : sn = "Custody" ∨ sn = "Organization" ∨ sn = "User")
    (hv : cleanValueB v = true) :
    entrySetLine e (sn ++ "-Signature:" ++ v) =
      (RetVal.ok, { e with signatures := fset e.signatures sn v }) := by
  rcases hsn with rfl | rfl | rfl
  · rw [show ("Custody" ++ "-Signature:" ++ v : String) =
        "Custody-Signature" ++ ":" ++ v from rfl,
      entrySetLine_wellformed e "Custody-Signature" v (by decide) (by decide)
        (by decide) hv]
    rfl
  · rw [show ("Organization" ++ "-Signature:" ++ v : String) =
        "Organization-Signature" ++ ":" ++ v from rfl,
      entrySetLine_wellformed e "Organization-Signature" v (by decide)
        (by decide) (by decide) hv]
    rfl
  · rw [show ("User" ++ "-Signature:" ++ v : String) =
        "User-Signature" ++ ":" ++ v from rfl,
      entrySetLine_wellformed e "User-Signature" v (by decide) (by decide)
        (by decide) hv]
    rfl

theorem entrySetLines_append (e : Entry) (l1 l2 : List String)
    (h : (entrySetLines e l1).1.code = "") :
    entrySetLines e (l1 ++ l2) =
      entrySetLines (entrySetLines e l1).2 l2 := by
  induction l1 generalizing e with
  | nil => rfl
  | cons a l ih =>
    by_cases hc : (entrySetLine e a).1.code = ""
    · have hstep : entrySetLines e (a :: l) =
          entrySetLines (entrySetLine e a).2 l := by
        simp only [entrySetLines]
        rw [if_pos hc]
      have hstep2 : entrySetLines e (a :: (l ++ l2)) =
          entrySetLines (entrySetLine e a).2 (l ++ l2) := by
        simp only [entrySetLines]
        rw [if_pos hc]
      rw [List.cons_append, hstep2, hstep]
      rw [hstep] at h
      exact ih _ h
    · have hstep : entrySetLines e (a :: l) = entrySetLine e a := by
        simp only [entrySetLines]
        rw [if_neg hc]
      rw [hstep] at h
      exact absurd h hc

def emitFieldLine (efields : List (String × String)) (f : String) :
    Option String :=
  match fget efields f with
  | some v => if v ≠ "" then some (f ++ ":" ++ v) else none
  | none => none

def applyFieldLine (efields : List (String × String))
    (fs : List (String × String)) (m : String) : List (String × String) :=
  match fget efields m with
  | some v => if v ≠ "" then fset fs m v else fs
  | none => fs

theorem fget_foldl_of_notmem (efields : List (String × String))
    (names : List String) (fs0 : List (String × String)) (n : String)
    (h : n ∉ names) :
    fget (names.foldl (applyFieldLine efields) fs0) n = fget fs0 n := by
  induction names generalizing fs0 with
  | nil => rfl
  | cons m ms ih =>
    simp only [List.mem_cons, not_or] at h
    simp only [List.foldl_cons]
    rw [ih _ h.2]
    unfold applyFieldLine
    cases hf : fget efields m with
    | none => rfl
    | some v =>
      by_cases hv : v = ""
      · simp [hv]
      · simp only [if_neg (by simpa using hv), hv, ne_eq,
          not_false_iff, if_true]
        exact fget_fset_ne _ _ _ _ h.1

theorem fget_foldl_mem (efields : List (String × String))
    (names : List String) (fs0 : List (String × String)) (n v : String)
    (hnd : names.Nodup) (hn : n ∈ names)
    (hv : fget efields n = some v) (hne : v ≠ "") :
    fget (names.foldl (applyFieldLine efields) fs0) n = some v := by
  induction names generalizing fs0 with
  | nil => cases hn
  | cons m ms ih =>
    rw [List.nodup_cons] at hnd
    rcases List.mem_cons.mp hn with rfl | hmem
    · simp only [List.foldl_cons]
      rw [fget_foldl_of_notmem _ _ _ _ hnd.1]
      unfold applyFieldLine
      rw [hv]
      simp only [if_neg (by simpa using hne), hne, ne_eq, not_false_iff,
        if_true]
      exact fget_fset_self _ _ _
    · simp only [List.foldl_cons]
      exact ih _ hnd.2 hmem

theorem fget_mem_snd {α : Type} (fs : List (String × α)) (k : String) (v : α)
    (h : fget fs k = some v) : ∃ p ∈ fs, p.2 = v := by
  unfold fget at h
  cases hf : fs.find? (fun p => p.1 == k) with
  | none =>
    rw [hf] at h
    cases h
  | some pr =>
    rw [hf] at h
    exact ⟨pr, List.mem_of_find?_eq_some hf, by simpa using h⟩

theorem entrySetLines_cons_ok (e p2 : Entry) (line : String)
    (rest : List String) (h : entrySetLine e line = (RetVal.ok, p2)) :
    entrySetLines e (line :: rest) = entrySetLines p2 rest := by
  simp only [entrySetLines]
  rw [h]
  rfl

theorem fieldLines_run (efields : List (String × String))
    (hclean : ∀ p ∈ efields, cleanValueB p.2 = true) :
    ∀ (names : List String), (∀ n ∈ names, fieldNameOk n = true) →
    ∀ (p : Entry),
    entrySetLines p (names.filterMap (emitFieldLine efields)) =
    (RetVal.ok,
      { p with fields := names.foldl (applyFieldLine efields) p.fields }) := by
  intro names
  induction names with
  | nil =>
    intro _ p
    rfl
  | cons m ms ih =>
    intro hnames p
    have hm := hnames m (List.mem_cons_self _ _)
    have hms := fun n hn => hnames n (List.mem_cons_of_mem _ hn)
    cases hf : fget efields m with
    | none =>
      have hemit : emitFieldLine efields m = none := by
        unfold emitFieldLine
        rw [hf]
      have happly : applyFieldLine efields p.fields m = p.fields := by
        unfold applyFieldLine
        rw [hf]
      simp only [List.filterMap_cons, List.foldl_cons, hemit, happly]
      exact ih hms p
    | some v =>
      by_cases hv : v = ""
      · have hemit : emitFieldLine efields m = none := by
          unfold emitFieldLine
          rw [hf]
          simp [hv]
        have happly : applyFieldLine efields p.fields m = p.fields := by
          unfold applyFieldLine
          rw [hf]
          simp [hv]
        simp only [List.filterMap_cons, List.foldl_cons, hemit, happly]
        exact ih hms p
      · have hcv : cleanValueB v = true := by
          obtain ⟨pr, hpr, hpv⟩ := fget_mem_snd efields m v hf
          rw [← hpv]
          exact hclean pr hpr
        have hemit : emitFieldLine efields m = some (m ++ ":" ++ v) := by
          unfold emitFieldLine
          rw [hf]
          simp [hv]
        have happly : applyFieldLine efields p.fields m = fset p.fields m v := by
          unfold applyFieldLine
          rw [hf]
          simp [hv]
        simp only [List.filterMap_cons, List.foldl_cons, hemit, happly]
        rw [entrySetLines_cons_ok p { p with fields := fset p.fields m v } _ _
          (entrySetLine_field p m v hm hcv)]
        exact ih hms { p with fields := fset p.fields m v }

theorem firstSigIssue_some_code (infos : List SigInfo) (E : Entry)
    (r : RetVal) (h : firstSigIssue infos E = some r) :
    r.code = "SignatureMissing" := by
  induction infos with
  | nil => cases h
  | cons a l ih =>
    unfold firstSigIssue at h
    rw [List.findSome?_cons] at h
    cases hfa : (if a.sigType = SIGINFO_HASH then
        if E.hash = "" then some (RetVal.err "SignatureMissing" "Hash")
        else none
      else if a.optional then
        match fget E.signatures a.name with
        | some v =>
          if v = "" then
            some (RetVal.err "SignatureMissing" (a.name ++ "-Signature"))
          else none
        | none => none
      else
        match fget E.signatures a.name with
        | some v =>
          if v = "" then
            some (RetVal.err "SignatureMissing" (a.name ++ "-Signature"))
          else none
        | none =>
          some (RetVal.err "SignatureMissing" (a.name ++ "-Signature"))) with
    | some b =>
      rw [hfa] at h
      have hbr : b = r := by
        cases h
        rfl
      subst hbr
      have : b.code = "SignatureMissing" := by
        split at hfa
        · split at hfa
          · cases hfa
            rfl
          · cases hfa
        · split at hfa
          · split at hfa
            · split at hfa
              · cases hfa
                rfl
              · cases hfa
            · cases hfa
          · split at hfa
            · split at hfa
              · cases hfa
                rfl
              · cases hfa
            · cases hfa
              rfl
      exact this
    | none =>
      rw [hfa] at h
      exact ih h

theorem is_compliant_spec (s : Schema) (E : Entry)
    (h : (is_compliant s E).code = "") :
    (∀ f ∈ s.required_fields, ∃ v, fget E.fields f = some v ∧ v ≠ "") ∧
      firstSigIssue s.signature_info E = none := by
  unfold is_compliant at h
  by_cases h1 : E.type ∉ ["User", "Organization"]
  · rw [if_pos h1] at h
    simp [RetVal.err] at h
  rw [if_neg h1] at h
  cases hreq : firstMissingRequired s.required_fields E.fields with
  | some f =>
    rw [hreq] at h
    simp [RetVal.err] at h
  | none =>
    rw [hreq] at h
    constructor
    · intro f hf
      have hfind := List.find?_eq_none.mp hreq f hf
      cases hv : fget E.fields f with
      | none =>
        exact absurd (by simp [hv]) hfind
      | some v =>
        refine ⟨v, rfl, ?_⟩
        intro hveq
        exact hfind (by simp [hv, hveq])
    · cases hsig : firstSigIssue s.signature_info E with
      | none => rfl
      | some r =>
        rw [hsig] at h
        have hc := firstSigIssue_some_code s.signature_info E r hsig
        rw [hc] at h
        exact absurd h (by decide)

theorem org_sig_none_spec (E : Entry)
    (h : firstSigIssue orgSchema.signature_info E = none) :
    fget E.signatures "Custody" ≠ some "" ∧
      (∃ v, fget E.signatures "Organization" = some v ∧ v ≠ "") ∧
      E.hash ≠ "" := by
  unfold firstSigIssue at h
  rw [List.findSome?_eq_none_iff] at h
  have hcus := h ⟨"Custody", 1, true, SIGINFO_SIGNATURE⟩ (by simp [orgSchema])
  have horg := h ⟨"Organization", 2, false, SIGINFO_SIGNATURE⟩
    (by simp [orgSchema])
  have hhash := h ⟨"Hashes", 3, false, SIGINFO_HASH⟩ (by simp [orgSchema])
  simp only [SIGINFO_HASH, SIGINFO_SIGNATURE] at hcus horg hhash
  refine ⟨?_, ?_, ?_⟩
  · intro hx
    rw [hx] at hcus
    simp at hcus
  · cases hv : fget E.signatures "Organization" with
    | none =>
      rw [hv] at horg
      simp at horg
    | some v =>
      rw [hv] at horg
      refine ⟨v, rfl, ?_⟩
      intro hveq
      rw [hveq] at horg
      simp at horg
  · intro hx
    rw [hx] at hhash
    simp at hhash

theorem user_sig_none_spec (E : Entry)
    (h : firstSigIssue userSchema.signature_info E = none) :
    fget E.signatures "Custody" ≠ some "" ∧
      (∃ v, fget E.signatures "Organization" = some v ∧ v ≠ "") ∧
      (∃ v, fget E.signatures "User" = some v ∧ v ≠ "") ∧
      E.hash ≠ "" := by
  unfold firstSigIssue at h
  rw [List.findSome?_eq_none_iff] at h
  have hcus := h ⟨"Custody", 1, true, SIGINFO_SIGNATURE⟩ (by simp [userSchema])
  have horg := h ⟨"Organization", 2, false, SIGINFO_SIGNATURE⟩
    (by simp [userSchema])
  have huser := h ⟨"User", 4, false, SIGINFO_SIGNATURE⟩ (by simp [userSchema])
  have hhash := h ⟨"Hashes", 3, false, SIGINFO_HASH⟩ (by simp [userSchema])
  simp only [SIGINFO_HASH, SIGINFO_SIGNATURE] at hcus horg huser hhash
  refine ⟨?_, ?_, ?_, ?_⟩
  · intro hx
    rw [hx] at hcus
    simp at hcus
  · cases hv : fget E.signatures "Organization" with
    | none =>
      rw [hv] at horg
      simp at horg
    | some v =>
      rw [hv] at horg
      refine ⟨v, rfl, ?_⟩
      intro hveq
      rw [hveq] at horg
      simp at horg
  · cases hv : fget E.signatures "User" with
    | none =>
      rw [hv] at huser
      simp at huser
    | some v =>
      rw [hv] at huser
      refine ⟨v, rfl, ?_⟩
      intro hveq
      rw [hveq] at huser
      simp at huser
  · intro hx
    rw [hx] at hhash
    simp at hhash

def emitSigChunk (esigs : List (String × String)) (sn : String) :
    List String :=
  match fget esigs sn with
  | some v => if v ≠ "" then [sn ++ "-Signature:" ++ v] else []
  | none => []

def applySig (esigs : List (String × String)) (sn : String)
    (sigs : List (String × String)) : List (String × String) :=
  match fget esigs sn with
  | some v => if v ≠ "" then fset sigs sn v else sigs
  | none => sigs

def applyOptField (key value : String)
    (fs : List (String × String)) : List (String × String) :=
  if value ≠ "" then fset fs key value else fs

theorem sigChunk_run (esigs : List (String × String)) (sn : String)
    (s : Entry) (hsn : sn = "Custody" ∨ sn = "Organization" ∨ sn = "User")
    (hclean : ∀ p ∈ esigs, cleanValueB p.2 = true) :
    entrySetLines s (emitSigChunk esigs sn) =
      (RetVal.ok, { s with signatures := applySig esigs sn s.signatures }) := by
  unfold emitSigChunk applySig
  cases hf : fget esigs sn with
  | none => rfl
  | some v =>
    by_cases hv : v = ""
    · simp only [hv, ne_eq, not_true_eq_false, if_false]
      rfl
    · have hcv : cleanValueB v = true := by
        obtain ⟨pr, hpr, hpv⟩ := fget_mem_snd esigs sn v hf
        rw [← hpv]
        exact hclean pr hpr
      simp only [ne_eq, hv, not_false_iff, if_true]
      rw [entrySetLines_cons_ok s
        { s with signatures := fset s.signatures sn v } _ []
        (entrySetLine_sig s sn v hsn hcv)]
      rfl

theorem optField_run (key value : String) (s : Entry)
    (hk : fieldNameOk key = true) (hv : cleanValueB value = true) :
    entrySetLines s (if value ≠ "" then [key ++ ":" ++ value] else []) =
      (RetVal.ok, { s with fields := applyOptField key value s.fields }) := by
  unfold applyOptField
  by_cases hne : value = ""
  · simp only [hne, ne_eq, not_true_eq_false, if_false]
    rfl
  · simp only [ne_eq, hne, not_false_iff, if_true]
    rw [entrySetLines_cons_ok s
      { s with fields := fset s.fields key value } _ []
      (entrySetLine_field s key value hk hv)]
    rfl

theorem fget_applySig_ne (esigs sigs : List (String × String))
    (sn n : String) (h : n ≠ sn) :
    fget (applySig esigs sn sigs) n = fget sigs n := by
  unfold applySig
  cases fget esigs sn with
  | none => rfl
  | some v =>
    by_cases hv : v = ""
    · simp [hv]
    · simp only [ne_eq, hv, not_false_iff, if_true]
      exact fget_fset_ne _ _ _ _ h

theorem fget_applySig_self (esigs sigs : List (String × String))
    (sn : String) (hne : fget esigs sn ≠ some "")
    (h0 : fget sigs sn = none) :
    fget (applySig esigs sn sigs) sn = fget esigs sn := by
  unfold applySig
  cases hf : fget esigs sn with
  | none => exact h0
  | some v =>
    by_cases hv : v = ""
    · rw [hv] at hf
      exact absurd hf hne
    · simp only [ne_eq, hv, not_false_iff, if_true]
      exact fget_fset_self _ _ _

theorem fget_applyOptField_ne (key value : String)
    (fs : List (String × String)) (n : String) (h : n ≠ key) :
    fget (applyOptField key value fs) n = fget fs n := by
  unfold applyOptField
  by_cases hv : value = ""
  · simp [hv]
  · simp only [ne_eq, hv, not_false_iff, if_true]
    exact fget_fset_ne _ _ _ _ h

theorem fget_applyOptField_self (key value : String)
    (fs : List (String × String)) (h : value ≠ "") :
    fget (applyOptField key value fs) key = some value := by
  unfold applyOptField
  simp only [ne_eq, h, not_false_iff, if_true]
  exact fget_fset_self _ _ _

theorem make_bytestring_org_all (E : Entry) :
    make_bytestring orgSchema E (-1) =
      (if E.type ≠ "" then ["Type:" ++ E.type] else []) ++
      orgSchema.field_names.filterMap (emitFieldLine E.fields) ++
      (emitSigChunk E.signatures "Custody" ++
       (emitSigChunk E.signatures "Organization" ++
       ((if E.prev_hash ≠ "" then ["Previous-Hash" ++ ":" ++ E.prev_hash]
         else []) ++
        (if E.hash ≠ "" then ["Hash" ++ ":" ++ E.hash] else [])))) := by
  have hemit : emitFieldLine E.fields = fun f =>
      match fget E.fields f with
      | some v => if v = "" then none else some (f ++ ":" ++ v)
      | none => none := by
    funext f
    unfold emitFieldLine
    cases fget E.fields f with
    | none => rfl
    | some v =>
      by_cases hv : v = "" <;> simp [hv]
  rw [hemit]
  simp only [make_bytestring, emitSigChunk, orgSchema, SIGINFO_HASH,
    SIGINFO_SIGNATURE]
  norm_num
  rw [show List.range 3 = [0, 1, 2] from rfl]
  simp only [List.flatMap_cons, List.flatMap_nil]
  norm_num
  rfl

theorem make_bytestring_user_all (E : Entry) :
    make_bytestring userSchema E (-1) =
      (if E.type ≠ "" then ["Type:" ++ E.type] else []) ++
      userSchema.field_names.filterMap (emitFieldLine E.fields) ++
      (emitSigChunk E.signatures "Custody" ++
       (emitSigChunk E.signatures "Organization" ++
       (((if E.prev_hash ≠ "" then ["Previous-Hash" ++ ":" ++ E.prev_hash]
          else []) ++
         (if E.hash ≠ "" then ["Hash" ++ ":" ++ E.hash] else [])) ++
        emitSigChunk E.signatures "User"))) := by
  have hemit : emitFieldLine E.fields = fun f =>
      match fget E.fields f with
      | some v => if v = "" then none else some (f ++ ":" ++ v)
      | none => none := by
    funext f
    unfold emitFieldLine
    cases fget E.fields f with
    | none => rfl
    | some v =>
      by_cases hv : v = "" <;> simp [hv]
  rw [hemit]
  simp only [make_bytestring, emitSigChunk, userSchema, SIGINFO_HASH,
    SIGINFO_SIGNATURE]
  norm_num
  rw [show List.range 4 = [0, 1, 2, 3] from rfl]
  simp only [List.flatMap_cons, List.flatMap_nil]
  norm_num
  rfl

theorem c2_org_run (E : Entry) (ex : String)
    (htype : E.type = "Organization")
    (hcf : ∀ p ∈ E.fields, cleanValueB p.2 = true)
    (hcs : ∀ p ∈ E.signatures, cleanValueB p.2 = true)
    (hch : cleanValueB E.hash = true)
    (hcp : cleanValueB E.prev_hash = true) :
    entrySetLines (freshOrgEntry ex) (make_bytestring orgSchema E (-1)) =
      (RetVal.ok,
        { type := "Organization"
          fields := applyOptField "Hash" E.hash
            (applyOptField "Previous-Hash" E.prev_hash
              (orgSchema.field_names.foldl (applyFieldLine E.fields)
                (freshOrgEntry ex).fields))
          signatures := applySig E.signatures "Organization"
            (applySig E.signatures "Custody" [])
          prev_hash := ""
          hash := "" }) := by
  rw [make_bytestring_org_all, htype, if_pos (by decide), List.append_assoc]
  have hTypeLine : entrySetLine (freshOrgEntry ex) ("Type:" ++ "Organization")
      = (RetVal.ok, freshOrgEntry ex) := rfl
  rw [List.singleton_append,
    entrySetLines_cons_ok _ _ _ _ hTypeLine]
  have hB := fieldLines_run E.fields hcf orgSchema.field_names (by decide)
    (freshOrgEntry ex)
  rw [entrySetLines_append _ _ _ (by rw [hB]; rfl), hB]
  dsimp only
  rw [entrySetLines_append _ _ _
      (by rw [sigChunk_run E.signatures "Custody" _ (Or.inl rfl) hcs]; rfl),
    sigChunk_run E.signatures "Custody" _ (Or.inl rfl) hcs]
  dsimp only
  rw [entrySetLines_append _ _ _
      (by rw [sigChunk_run E.signatures "Organization" _ (Or.inr (Or.inl rfl))
        hcs]; rfl),
    sigChunk_run E.signatures "Organization" _ (Or.inr (Or.inl rfl)) hcs]
  dsimp only
  rw [entrySetLines_append _ _ _
      (by rw [optField_run "Previous-Hash" E.prev_hash _ (by decide) hcp]; rfl),
    optField_run "Previous-Hash" E.prev_hash _ (by decide) hcp]
  dsimp only
  rw [optField_run "Hash" E.hash _ (by decide) hch]
  rfl

theorem c2_user_run (E : Entry) (ex : String)
    (htype : E.type = "User")
    (hcf : ∀ p ∈ E.fields, cleanValueB p.2 = true)
    (hcs : ∀ p ∈ E.signatures, cleanValueB p.2 = true)
    (hch : cleanValueB E.hash = true)
    (hcp : cleanValueB E.prev_hash = true) :
    entrySetLines (freshUserEntry ex) (make_bytestring userSchema E (-1)) =
      (RetVal.ok,
        { type := "User"
          fields := applyOptField "Hash" E.hash
            (applyOptField "Previous-Hash" E.prev_hash
              (userSchema.field_names.foldl (applyFieldLine E.fields)
                (freshUserEntry ex).fields))
          signatures := applySig E.signatures "User"
            (applySig E.signatures "Organization"
              (applySig E.signatures "Custody" []))
          prev_hash := ""
          hash := "" }) := by
  rw [make_bytestring_user_all, htype, if_pos (by decide), List.append_assoc]
  have hTypeLine : entrySetLine (freshUserEntry ex) ("Type:" ++ "User")
      = (RetVal.ok, freshUserEntry ex) := rfl
  rw [List.singleton_append,
    entrySetLines_cons_ok _ _ _ _ hTypeLine]
  have hB := fieldLines_run E.fields hcf userSchema.field_names (by decide)
    (freshUserEntry ex)
  rw [entrySetLines_append _ _ _ (by rw [hB]; rfl), hB]
  dsimp only
  rw [entrySetLines_append _ _ _
      (by rw [sigChunk_run E.signatures "Custody" _ (Or.inl rfl) hcs]; rfl),
    sigChunk_run E.signatures "Custody" _ (Or.inl rfl) hcs]
  dsimp only
  rw [entrySetLines_append _ _ _
      (by
        rw [sigChunk_run E.signatures "Organization" _ (Or.inr (Or.inl rfl))
          hcs]
        rfl),
    sigChunk_run E.signatures "Organization" _ (Or.inr (Or.inl rfl)) hcs]
  dsimp only
  rw [List.append_assoc]
  rw [entrySetLines_append _ _ _
      (by
        rw [optField_run "Previous-Hash" E.prev_hash _ (by decide) hcp]
        rfl),
    optField_run "Previous-Hash" E.prev_hash _ (by decide) hcp]
  dsimp only
  rw [entrySetLines_append _ _ _
      (by
        rw [optField_run "Hash" E.hash _ (by decide) hch]
        rfl),
    optField_run "Hash" E.hash _ (by decide) hch]
  dsimp only
  rw [sigChunk_run E.signatures "User" _ (Or.inr (Or.inr rfl)) hcs]
  rfl

/-- C2 (amended): for a compliant entry E whose stored values are clean
(no CR/LF, no trailing whitespace — the byte/line correspondence of the
model), set(make_bytestring(-1)) on a fresh same-type entry succeeds and
recovers E's non-empty declared fields and its signature slots; BUT the
serialized Previous-Hash and Hash lines are parsed back as ordinary fields
named "Previous-Hash" and "Hash", and the parsed entry's prev_hash and hash
attributes remain empty — the claim's prev_hash and hash equality fails. -/
theorem c2_roundtrip_amended :
    (∀ (E : Entry) (ex : String),
      E.type = "Organization" →
      (is_compliant orgSchema E).code = "" →
      entryClean E = true →
      (entrySetLines (freshOrgEntry ex)
          (make_bytestring orgSchema E (-1))).1.code = "" ∧
      (∀ n ∈ orgSchema.field_names, ∀ v, fget E.fields n = some v → v ≠ "" →
        fget (entrySetLines (freshOrgEntry ex)
          (make_bytestring orgSchema E (-1))).2.fields n = some v) ∧
      fget (entrySetLines (freshOrgEntry ex)
          (make_bytestring orgSchema E (-1))).2.signatures "Custody" =
        fget E.signatures "Custody" ∧
      fget (entrySetLines (freshOrgEntry ex)
          (make_bytestring orgSchema E (-1))).2.signatures "Organization" =
        fget E.signatures "Organization" ∧
      fget (entrySetLines (freshOrgEntry ex)
          (make_bytestring orgSchema E (-1))).2.fields "Hash" = some E.hash ∧
      (E.prev_hash ≠ "" →
        fget (entrySetLines (freshOrgEntry ex)
          (make_bytestring orgSchema E (-1))).2.fields "Previous-Hash" =
          some E.prev_hash) ∧
      (entrySetLines (freshOrgEntry ex)
          (make_bytestring orgSchema E (-1))).2.hash = "" ∧
      (entrySetLines (freshOrgEntry ex)
          (make_bytestring orgSchema E (-1))).2.prev_hash = "") ∧
    (∀ (E : Entry) (ex : String),
      E.type = "User" →
      (is_compliant userSchema E).code = "" →
      entryClean E = true →
      (entrySetLines (freshUserEntry ex)
          (make_bytestring userSchema E (-1))).1.code = "" ∧
      (∀ n ∈ userSchema.field_names, ∀ v, fget E.fields n = some v → v ≠ "" →
        fget (entrySetLines (freshUserEntry ex)
          (make_bytestring userSchema E (-1))).2.fields n = some v) ∧
      fget (entrySetLines (freshUserEntry ex)
          (make_bytestring userSchema E (-1))).2.signatures "Custody" =
        fget E.signatures "Custody" ∧
      fget (entrySetLines (freshUserEntry ex)
          (make_bytestring userSchema E (-1))).2.signatures "Organization" =
        fget E.signatures "Organization" ∧
      fget (entrySetLines (freshUserEntry ex)
          (make_bytestring userSchema E (-1))).2.signatures "User" =
        fget E.signatures "User" ∧
      fget (entrySetLines (freshUserEntry ex)
          (make_bytestring userSchema E (-1))).2.fields "Hash" = some E.hash ∧
      (E.prev_hash ≠ "" →
        fget (entrySetLines (freshUserEntry ex)
          (make_bytestring userSchema E (-1))).2.fields "Previous-Hash" =
          some E.prev_hash) ∧
      (entrySetLines (freshUserEntry ex)
          (make_bytestring userSchema E (-1))).2.hash = "" ∧
      (entrySetLines (freshUserEntry ex)
          (make_bytestring userSchema E (-1))).2.prev_hash = "") := by
  constructor
  · intro E ex htype hcomp hclean
    have hcl := hclean
    unfold entryClean at hcl
    simp only [Bool.and_eq_true, List.all_eq_true] at hcl
    have hcf := hcl.1.1.1
    have hcs := hcl.1.1.2
    have hch := hcl.1.2
    have hcp := hcl.2
    obtain ⟨hreq, hsignone⟩ := is_compliant_spec orgSchema E hcomp
    obtain ⟨hcusne, ⟨ov, hov, hovne⟩, hhash⟩ := org_sig_none_spec E hsignone
    have horgne : fget E.signatures "Organization" ≠ some "" := by
      intro hx
      rw [hov] at hx
      have := (Option.some.injEq _ _).mp hx
      exact hovne this
    have hrun := c2_org_run E ex htype hcf hcs hch hcp
    rw [hrun]
    refine ⟨rfl, ?_, ?_, ?_, ?_, ?_, rfl, rfl⟩
    · intro n hn v hv hvne
      dsimp only
      fin_cases hn <;>
        rw [fget_applyOptField_ne _ _ _ _ (by decide),
          fget_applyOptField_ne _ _ _ _ (by decide),
          fget_foldl_mem E.fields _ _ _ v (by decide) (by decide) hv hvne]
    · dsimp only
      rw [fget_applySig_ne _ _ _ _ (by decide)]
      exact fget_applySig_self E.signatures [] "Custody" hcusne rfl
    · dsimp only
      refine fget_applySig_self E.signatures _ "Organization" horgne ?_
      rw [fget_applySig_ne _ _ _ _ (by decide)]
      rfl
    · dsimp only
      exact fget_applyOptField_self "Hash" E.hash _ hhash
    · intro hp
      dsimp only
      rw [fget_applyOptField_ne _ _ _ _ (by decide)]
      exact fget_applyOptField_self "Previous-Hash" E.prev_hash _ hp
  · intro E ex htype hcomp hclean
    have hcl := hclean
    unfold entryClean at hcl
    simp only [Bool.and_eq_true, List.all_eq_true] at hcl
    have hcf := hcl.1.1.1
    have hcs := hcl.1.1.2
    have hch := hcl.1.2
    have hcp := hcl.2
    obtain ⟨hreq, hsignone⟩ := is_compliant_spec userSchema E hcomp
    obtain ⟨hcusne, ⟨ov, hov, hovne⟩, ⟨uv, huv, huvne⟩, hhash⟩ :=
      user_sig_none_spec E hsignone
    have horgne : fget E.signatures "Organization" ≠ some "" := by
      intro hx
      rw [hov] at hx
      have := (Option.some.injEq _ _).mp hx
      exact hovne this
    have huserne : fget E.signatures "User" ≠ some "" := by
      intro hx
      rw [huv] at hx
      have := (Option.some.injEq _ _).mp hx
      exact huvne this
    have hrun := c2_user_run E ex htype hcf hcs hch hcp
    rw [hrun]
    refine ⟨rfl, ?_, ?_, ?_, ?_, ?_, ?_, rfl, rfl⟩
    · intro n hn v hv hvne
      dsimp only
      fin_cases hn <;>
        rw [fget_applyOptField_ne _ _ _ _ (by decide),
          fget_applyOptField_ne _ _ _ _ (by decide),
          fget_foldl_mem E.fields _ _ _ v (by decide) (by decide) hv hvne]
    · dsimp only
      rw [fget_applySig_ne _ _ _ _ (by decide),
        fget_applySig_ne _ _ _ _ (by decide)]
      exact fget_applySig_self E.signatures [] "Custody" hcusne rfl
    · dsimp only
      rw [fget_applySig_ne _ _ _ _ (by decide)]
      refine fget_applySig_self E.signatures _ "Organization" horgne ?_
      rw [fget_applySig_ne _ _ _ _ (by decide)]
      rfl
    · dsimp only
      refine fget_applySig_self E.signatures _ "User" huserne ?_
      rw [fget_applySig_ne _ _ _ _ (by decide),
        fget_applySig_ne _ _ _ _ (by decide)]
      rfl
    · dsimp only
      exact fget_applyOptField_self "Hash" E.hash _ hhash
    · intro hp
      dsimp only
      rw [fget_applyOptField_ne _ _ _ _ (by decide)]
      exact fget_applyOptField_self "Previous-Hash" E.prev_hash _ hp

/-- C2 counterexample: round-tripping the concrete compliant organization
entry succeeds but loses hash and prev_hash: the parsed entry's hash is ""
while the original's is not, and the hash value surfaces as an ordinary
field named "Hash". -/
theorem c2_counterexample :
    (is_compliant orgSchema cexOrgPrev).code = "" ∧
      (entrySetLines (freshOrgEntry "20270101")
        (make_bytestring orgSchema cexOrgPrev (-1))).1.code = "" ∧
      (entrySetLines (freshOrgEntry "20270101")
        (make_bytestring orgSchema cexOrgPrev (-1))).2.hash = "" ∧
      cexOrgPrev.hash = "BLAKE3-256:PREVHASH" ∧
      fget (entrySetLines (freshOrgEntry "20270101")
        (make_bytestring orgSchema cexOrgPrev (-1))).2.fields "Hash" =
        some "BLAKE3-256:PREVHASH" := by
  refine ⟨by decide, by decide, by decide, rfl, by decide⟩

/-- C2 witness: the amended theorem instantiated at the concrete compliant
organization entry. -/
theorem c2_roundtrip_amended_witness :
    cexOrgPrev.type = "Organization" ∧
      (is_compliant orgSchema cexOrgPrev).code = "" ∧
      entryClean cexOrgPrev = true ∧
      (entrySetLines (freshOrgEntry "20270101")
        (make_bytestring orgSchema cexOrgPrev (-1))).1.code = "" ∧
      fget (entrySetLines (freshOrgEntry "20270101")
        (make_bytestring orgSchema cexOrgPrev (-1))).2.fields "Hash" =
        some cexOrgPrev.hash ∧
      (entrySetLines (freshOrgEntry "20270101")
        (make_bytestring orgSchema cexOrgPrev (-1))).2.hash = "" := by
  have h := c2_roundtrip_amended.1 cexOrgPrev "20270101" rfl (by decide)
    (by decide)
  exact ⟨rfl, by decide, by decide, h.1, h.2.2.2.2.1, h.2.2.2.2.2.2.1⟩
